import Mathlib

/-!
Verification of the Pinniped upstream identity provider reconciliation engine.

This file shallowly embeds the Go code of
`internal/controller/supervisorconfig/upstreamwatcher/upstreamwatcher.go`
(the OIDC upstream watcher controller: `Sync`, `validateUpstream`,
`validateSecret`, `validateIssuer`, `updateStatus`, `mergeCondition`,
`computeScopes`) and of the `cachecleaner` controller's `Sync`, and proves
the specified properties about them.

Modelling conventions:
- Kubernetes informer lookups become explicit function arguments
  (`secrets : String → String → Option Secret` etc.); a `none` result models
  any lookup error (in particular not-found).
- The external OIDC discovery transport (`oidc.NewProvider`) becomes a
  function `discover : String → Option OIDCProviderMeta`; `none` models any
  discovery failure.
- `net/url.Parse` becomes `parse : String → Except String URL`; the error
  string models `err.Error()`.
- `metav1.Time` values and the clock become `Nat` timestamps; the
  `k8s.io/apimachinery/pkg/util/cache` `Expiring` cache becomes an
  association list of entries with absolute expiry times (an entry is live
  at time `now` iff `now ≤ expiry`, matching `time.Now().After(expiry)`
  deciding expiry, and `Set` replaces any previous entry for the key).
- Status-update API writes are modelled as succeeding: a pass returns the
  resources with their written statuses applied.
-/

namespace Upstreamwatcher

/-- Status of a condition, from `v1alpha1.ConditionStatus`
(`ConditionTrue` / `ConditionFalse` / `ConditionUnknown`). -/
inductive ConditionStatus
  | conditionTrue
  | conditionFalse
  | conditionUnknown
deriving DecidableEq, Repr

/-- `v1alpha1.Condition`: type, status, reason, message, last transition
time, observed generation. -/
structure Condition where
  type_ : String
  status : ConditionStatus
  reason : String
  message : String
  lastTransitionTime : Nat
  observedGeneration : Int
deriving DecidableEq, Repr

/-- A Kubernetes `corev1.Secret`, reduced to the fields the watcher reads:
the declared `.type` tag and the `.data` byte map (modelled as an
association list of strings). -/
structure Secret where
  type_ : String
  data : List (String × String)
deriving DecidableEq, Repr

/-- Go map indexing `secret.Data[key]`: returns the zero value (empty
string) when the key is absent. -/
def Secret.getData (s : Secret) (k : String) : String :=
  match s.data.lookup k with
  | some v => v
  | none => ""

/-- `v1alpha1.UpstreamOIDCProviderSpec.AuthorizationConfig`. -/
structure AuthorizationConfig where
  additionalScopes : List String
deriving DecidableEq, Repr

/-- `v1alpha1.OIDCClient`: the reference to the client-credentials Secret. -/
structure OIDCClient where
  secretName : String
deriving DecidableEq, Repr

/-- `v1alpha1.UpstreamOIDCProviderSpec`. -/
structure UpstreamOIDCProviderSpec where
  issuer : String
  authorizationConfig : AuthorizationConfig
  client : OIDCClient
deriving DecidableEq, Repr

/-- `v1alpha1.UpstreamOIDCProviderStatus`: phase plus condition list. -/
structure UpstreamOIDCProviderStatus where
  phase : String
  conditions : List Condition
deriving DecidableEq, Repr

/-- `v1alpha1.UpstreamOIDCProvider`, reduced to the fields the watcher
reads or writes. -/
structure UpstreamOIDCProvider where
  namespace_ : String
  name : String
  generation : Int
  spec : UpstreamOIDCProviderSpec
  status : UpstreamOIDCProviderStatus
deriving DecidableEq, Repr

/-- A parsed `net/url.URL`, reduced to the scheme and the remainder. -/
structure URL where
  scheme : String
  rest : String
deriving DecidableEq, Repr

/-- The discovered provider metadata (`oidc.Provider`), reduced to
`Endpoint().AuthURL`. -/
structure OIDCProviderMeta where
  authURL : String
deriving DecidableEq, Repr

/-- `provider.UpstreamOIDCIdentityProvider`: the validated runtime object
published to the IDP cache. -/
structure UpstreamOIDCIdentityProvider where
  name : String
  scopes : List String
  clientID : String
  authorizationURL : URL
deriving DecidableEq, Repr

/-! Constants from the `const` block of upstreamwatcher.go. -/

def oidcClientSecretType : String := "secrets.pinniped.dev/oidc-client"

def clientIDDataKey : String := "clientID"

def clientSecretDataKey : String := "clientSecret"

/-- `15 * time.Minute` in nanoseconds (Go `time.Duration` units). -/
def validatorCacheTTL : Nat := 15 * 60 * 1000000000

def typeClientCredsValid : String := "ClientCredentialsValid"

def typeOIDCDiscoverySucceeded : String := "OIDCDiscoverySucceeded"

def reasonNotFound : String := "SecretNotFound"

def reasonWrongType : String := "SecretWrongType"

def reasonMissingKeys : String := "SecretMissingKeys"

def reasonSuccess : String := "Success"

def reasonUnreachable : String := "Unreachable"

def reasonInvalidResponse : String := "InvalidResponse"

/-- `v1alpha1.PhaseReady`. -/
def phaseReady : String := "Ready"

/-- `v1alpha1.PhaseError`. -/
def phaseError : String := "Error"

/-- Order on strings, as lexicographic order on their character lists
(modelling Go's byte-wise string comparison used by `sort.Strings` and by
`sort.SliceStable` over condition types). -/
def strLe (a b : String) : Prop := ¬ b.data < a.data

instance : DecidableRel strLe := fun _ _ => instDecidableNot

theorem strLe_iff (a b : String) : strLe a b ↔ a.data ≤ b.data := not_lt

theorem strLe_total (a b : String) : strLe a b ∨ strLe b a := by
  rcases le_total a.data b.data with h | h
  · exact Or.inl ((strLe_iff a b).mpr h)
  · exact Or.inr ((strLe_iff b a).mpr h)

theorem strLe_trans {a b c : String} (h1 : strLe a b) (h2 : strLe b c) : strLe a c :=
  (strLe_iff a c).mpr (le_trans ((strLe_iff a b).mp h1) ((strLe_iff b c).mp h2))

/-- `computeScopes`: the de-duplicated set of `"openid"` plus the additional
scopes, sorted (`sort.Strings` over the map keys). -/
def computeScopes (additionalScopes : List String) : List String :=
  List.insertionSort strLe (("openid" :: additionalScopes).dedup)

/-- `validateSecret`: validates the referenced client-credentials Secret and
returns the `ClientCredentialsValid` condition plus the extracted client ID
(the mutation `result.ClientID = string(clientID)`) on success.
The `secrets` argument models the informer lister
(`c.secrets.Lister().Secrets(namespace).Get(name)`); `none` models a lookup
error. Condition timestamps/generations are the Go zero values here; they
are filled in by `updateStatus`. -/
def validateSecret (secrets : String → String → Option Secret)
    (upstream : UpstreamOIDCProvider) : Condition × Option String :=
  let secretName := upstream.spec.client.secretName
  match secrets upstream.namespace_ secretName with
  | none =>
    ({ type_ := typeClientCredsValid
       status := ConditionStatus.conditionFalse
       reason := reasonNotFound
       message := "secret \"" ++ secretName ++ "\" not found"
       lastTransitionTime := 0
       observedGeneration := 0 }, none)
  | some secret =>
    if secret.type_ ≠ oidcClientSecretType then
      ({ type_ := typeClientCredsValid
         status := ConditionStatus.conditionFalse
         reason := reasonWrongType
         message := "referenced Secret \"" ++ secretName ++ "\" has wrong type \""
           ++ secret.type_ ++ "\" (should be \"" ++ oidcClientSecretType ++ "\")"
         lastTransitionTime := 0
         observedGeneration := 0 }, none)
    else
      let clientID := secret.getData clientIDDataKey
      let clientSecret := secret.getData clientSecretDataKey
      if clientID.length = 0 ∨ clientSecret.length = 0 then
        ({ type_ := typeClientCredsValid
           status := ConditionStatus.conditionFalse
           reason := reasonMissingKeys
           message := "referenced Secret \"" ++ secretName
             ++ "\" is missing required keys [\"" ++ clientIDDataKey ++ "\" \""
             ++ clientSecretDataKey ++ "\"]"
           lastTransitionTime := 0
           observedGeneration := 0 }, none)
      else
        ({ type_ := typeClientCredsValid
           status := ConditionStatus.conditionTrue
           reason := reasonSuccess
           message := "loaded client credentials"
           lastTransitionTime := 0
           observedGeneration := 0 }, some clientID)

/-! The OIDC discovery cache (`c.validatorCache`, a
`k8s.io/apimachinery/pkg/util/cache.Expiring`). An entry is an issuer key,
the discovered metadata, and an absolute expiry time. -/

/-- One entry of the discovery cache. -/
structure CacheEntry where
  key : String
  val : OIDCProviderMeta
  expiry : Nat
deriving DecidableEq, Repr

/-- `Expiring.Get`: returns the entry for the key unless it has expired
(`clock.Now().After(entry.expiry)`, i.e. live iff `now ≤ expiry`). -/
def cacheGet (c : List CacheEntry) (now : Nat) (key : String) : Option OIDCProviderMeta :=
  match c.find? (fun e => e.key == key) with
  | some e => if now ≤ e.expiry then some e.val else none
  | none => none

/-- `Expiring.Set`: stores the value under the key with expiry `now + ttl`,
replacing any previous entry for that key. -/
def cacheSet (c : List CacheEntry) (now ttl : Nat) (key : String) (v : OIDCProviderMeta) :
    List CacheEntry :=
  { key := key, val := v, expiry := now + ttl } :: c.filter (fun e => ¬ e.key = key)

/-- The outcome of `validateIssuer`: the `OIDCDiscoverySucceeded` condition,
the validated authorization endpoint on success (the mutation
`result.AuthorizationURL = *authURL`), the discovery cache after the call,
and whether the discovery transport (`oidc.NewProvider`) was invoked. -/
structure IssuerResult where
  cond : Condition
  endpoint : Option URL
  cache : List CacheEntry
  discoveryCalled : Bool
deriving Repr

/-- The `Unreachable` condition produced when discovery fails. -/
def unreachableCondition (issuer : String) : Condition :=
  { type_ := typeOIDCDiscoverySucceeded
    status := ConditionStatus.conditionFalse
    reason := reasonUnreachable
    message := "failed to perform OIDC discovery against \"" ++ issuer ++ "\""
    lastTransitionTime := 0
    observedGeneration := 0 }

/-- The tail of `validateIssuer` after a provider was obtained (from the
cache or from a fresh discovery call): parse the advertised authorization
endpoint and enforce the `https` scheme. -/
def validateEndpoint (parse : String → Except String URL) (cache : List CacheEntry)
    (called : Bool) (p : OIDCProviderMeta) : IssuerResult :=
  match parse p.authURL with
  | Except.error e =>
    { cond := { type_ := typeOIDCDiscoverySucceeded
                status := ConditionStatus.conditionFalse
                reason := reasonInvalidResponse
                message := "failed to parse authorization endpoint URL: " ++ e
                lastTransitionTime := 0
                observedGeneration := 0 }
      endpoint := none, cache := cache, discoveryCalled := called }
  | Except.ok authURL =>
    if authURL.scheme ≠ "https" then
      { cond := { type_ := typeOIDCDiscoverySucceeded
                  status := ConditionStatus.conditionFalse
                  reason := reasonInvalidResponse
                  message := "authorization endpoint URL scheme must be \"https\", not \""
                    ++ authURL.scheme ++ "\""
                  lastTransitionTime := 0
                  observedGeneration := 0 }
        endpoint := none, cache := cache, discoveryCalled := called }
    else
      { cond := { type_ := typeOIDCDiscoverySucceeded
                  status := ConditionStatus.conditionTrue
                  reason := reasonSuccess
                  message := "discovered issuer configuration"
                  lastTransitionTime := 0
                  observedGeneration := 0 }
        endpoint := some authURL, cache := cache, discoveryCalled := called }

/-- `validateIssuer`: consult the discovery cache keyed by the issuer URL;
on a miss perform discovery (`discover`; `none` models any failure), caching
a successful result with `validatorCacheTTL`; then validate the advertised
authorization endpoint. -/
def validateIssuer (discover : String → Option OIDCProviderMeta)
    (parse : String → Except String URL) (cache : List CacheEntry) (now : Nat)
    (issuer : String) : IssuerResult :=
  match cacheGet cache now issuer with
  | some p => validateEndpoint parse cache false p
  | none =>
    match discover issuer with
    | none =>
      { cond := unreachableCondition issuer
        endpoint := none, cache := cache, discoveryCalled := true }
    | some p =>
      validateEndpoint parse (cacheSet cache now validatorCacheTTL issuer p) true p

/-- The index of the last condition in the list whose type matches `t`
(the Go loop in `mergeCondition` uses `continue`, not `break`, so the last
match wins). -/
def lastIdxOfType : List Condition → String → Option Nat
  | [], _ => none
  | c :: rest, t =>
    match lastIdxOfType rest t with
    | some i => some (i + 1)
    | none => if c.type_ = t then some 0 else none

/-- `mergeCondition`: merges a new condition into the list of existing
conditions, returning the updated list and whether the condition
meaningfully changed. If no condition of the same type exists, the new one
is appended. Otherwise the old `lastTransitionTime` is carried forward when
the status is unchanged, and the entry is replaced in place unless the
merged condition is structurally equal to the old entry. -/
def mergeCondition (existing : List Condition) (nw : Condition) : List Condition × Bool :=
  match lastIdxOfType existing nw.type_ with
  | none => (existing ++ [nw], true)
  | some i =>
    let old := existing.getD i nw
    let merged := if old.status = nw.status
      then { nw with lastTransitionTime := old.lastTransitionTime }
      else nw
    if ¬ old = merged then (existing.set i merged, true) else (existing, false)

/-- Ordering of conditions by type, used by the `sort.SliceStable` call in
`updateStatus`. -/
def condLE (a b : Condition) : Prop := strLe a.type_ b.type_

instance : DecidableRel condLE := fun a b => inferInstanceAs (Decidable (strLe a.type_ b.type_))

instance : IsTotal Condition condLE := ⟨fun a b => strLe_total a.type_ b.type_⟩

instance : IsTrans Condition condLE := ⟨fun _ _ _ => strLe_trans⟩

/-- The merge loop of `updateStatus` over the fresh conditions. -/
def mergeAll (existing : List Condition) (conds : List Condition) : List Condition :=
  conds.foldl (fun acc c => (mergeCondition acc c).1) existing

/-- `updateStatus`: stamps each fresh condition with the current time and
the resource's generation, merges them into the status conditions, computes
the phase (`Error` if any fresh condition is False, else `Ready`), sorts the
conditions by type, and issues a status write iff the updated resource
differs from the original (`equality.Semantic.DeepEqual`). Returns the
resource as stored after the pass and whether a write was issued (writes
are modelled as succeeding). -/
def updateStatus (now : Nat) (upstream : UpstreamOIDCProvider)
    (conditions : List Condition) : UpstreamOIDCProvider × Bool :=
  let fresh := conditions.map fun c =>
    { c with lastTransitionTime := now, observedGeneration := upstream.generation }
  let merged := mergeAll upstream.status.conditions fresh
  let phase := if fresh.any (fun c => c.status = ConditionStatus.conditionFalse)
    then phaseError else phaseReady
  let updated := { upstream with
    status := { phase := phase, conditions := List.insertionSort condLE merged } }
  (updated, decide (¬ updated = upstream))

/-- The `provider.UpstreamOIDCIdentityProvider` built by `validateUpstream`:
name and scopes are set up front; `ClientID` and `AuthorizationURL` are
filled in by the validators on success (Go zero values otherwise). -/
def buildResult (upstream : UpstreamOIDCProvider) (clientID : Option String)
    (endpoint : Option URL) : UpstreamOIDCIdentityProvider :=
  { name := upstream.name
    scopes := computeScopes upstream.spec.authorizationConfig.additionalScopes
    clientID := clientID.getD ""
    authorizationURL := endpoint.getD { scheme := "", rest := "" } }

/-- The outcome of `validateUpstream` for one resource: the validated
provider (`none` when some condition is False), the resource after the
status update, whether a status write was issued, the discovery cache
afterwards, whether the discovery transport was invoked, and the condition
list that was computed and passed to `updateStatus`. -/
structure ValidateResult where
  provider : Option UpstreamOIDCIdentityProvider
  upstream : UpstreamOIDCProvider
  wroteStatus : Bool
  cache : List CacheEntry
  discoveryCalled : Bool
  conditions : List Condition
deriving Repr

/-- `validateUpstream`: runs both validators (always both — secret first,
then issuer/discovery), updates the status with both conditions, and
returns the validated provider unless some condition has status False. -/
def validateUpstream (secrets : String → String → Option Secret)
    (discover : String → Option OIDCProviderMeta) (parse : String → Except String URL)
    (cache : List CacheEntry) (now : Nat) (upstream : UpstreamOIDCProvider) :
    ValidateResult :=
  let sres := validateSecret secrets upstream
  let ires := validateIssuer discover parse cache now upstream.spec.issuer
  let conditions := [sres.1, ires.cond]
  let (upstream', wrote) := updateStatus now upstream conditions
  let valid := conditions.all fun c => ¬ c.status = ConditionStatus.conditionFalse
  { provider := if valid then some (buildResult upstream sres.2 ires.endpoint) else none
    upstream := upstream'
    wroteStatus := wrote
    cache := ires.cache
    discoveryCalled := ires.discoveryCalled
    conditions := conditions }

/-- `IDPCache.SetIDPList`. Modelled from the spec: the implementation of the
snapshot cache (`internal/oidc/provider`) is not part of the sampled source;
per the spec the published list is "replaced wholesale on every successful
reconciliation pass, even if the new list is empty". -/
def setIDPList (_previous nw : List UpstreamOIDCIdentityProvider) :
    List UpstreamOIDCIdentityProvider := nw

/-- The state accumulated by the loop of `Sync` over the listed resources:
the validated providers (in listing order), the requeue flag, the resources
after status writes, the final discovery cache, and the number of status
writes issued. -/
structure LoopResult where
  vals : List UpstreamOIDCIdentityProvider
  requeue : Bool
  upstreams : List UpstreamOIDCProvider
  cache : List CacheEntry
  statusWrites : Nat
deriving Repr

/-- The loop of `Sync` over the listed resources, threading the discovery
cache (`requeue = true` once some `validateUpstream` returns nil). -/
def syncLoop (secrets : String → String → Option Secret)
    (discover : String → Option OIDCProviderMeta) (parse : String → Except String URL)
    (now : Nat) : List UpstreamOIDCProvider → List CacheEntry → LoopResult
  | [], cache => { vals := [], requeue := false, upstreams := [], cache := cache,
                   statusWrites := 0 }
  | u :: rest, cache =>
    let r := validateUpstream secrets discover parse cache now u
    let t := syncLoop secrets discover parse now rest r.cache
    { vals := r.provider.toList ++ t.vals
      requeue := r.provider.isNone || t.requeue
      upstreams := r.upstream :: t.upstreams
      cache := t.cache
      statusWrites := (if r.wroteStatus then 1 else 0) + t.statusWrites }

/-- Result of one reconciliation pass. -/
structure SyncResult where
  published : List UpstreamOIDCIdentityProvider
  syntheticRequeue : Bool
  upstreams : List UpstreamOIDCProvider
  cache : List CacheEntry
  statusWrites : Nat
deriving Repr

/-- `Sync`: one reconciliation pass over a successfully listed set of
resources: validate each resource, publish the validated providers via
`SetIDPList` (replacing `prevPublished`), and return
`ErrSyntheticRequeue` (modelled as the `syntheticRequeue` flag) iff some
resource's `validateUpstream` returned nil. -/
def Sync (secrets : String → String → Option Secret)
    (discover : String → Option OIDCProviderMeta) (parse : String → Except String URL)
    (upstreams : List UpstreamOIDCProvider)
    (prevPublished : List UpstreamOIDCIdentityProvider)
    (cache : List CacheEntry) (now : Nat) : SyncResult :=
  let t := syncLoop secrets discover parse now upstreams cache
  { published := setIDPList prevPublished t.vals
    syntheticRequeue := t.requeue
    upstreams := t.upstreams
    cache := t.cache
    statusWrites := t.statusWrites }

end Upstreamwatcher

namespace Cachecleaner

/-!
Embedding of the `cachecleaner` controller's `Sync`
(package `internal/controller/authenticator/cachecleaner`), which garbage
collects the authenticator cache (`authncache.Cache`, modelled as an
association list with distinct keys).
-/

/-- `authncache.Key`. -/
structure Key where
  namespace_ : String
  name : String
  kind : String
  apiGroup : String
deriving DecidableEq, Repr

/-- A cached authenticator value, reduced to whether it implements the
`closable` interface (has a `Close()` method). -/
structure Value where
  closable : Bool
deriving DecidableEq, Repr

/-- The namespace/name identity of a declared WebhookAuthenticator or
JWTAuthenticator resource. -/
structure NamespacedName where
  namespace_ : String
  name : String
deriving DecidableEq, Repr

/-- `auth1alpha1.SchemeGroupVersion.Group`: this engine's own API group. -/
def authenticationGroup : String := "authentication.concierge.pinniped.dev"

/-- The set of cache keys implied by the currently declared resources of
both kinds (`authenticatorSet` in the Go code; membership is what the Go
map provides). -/
def impliedKeys (webhooks jwtAuthenticators : List NamespacedName) : List Key :=
  webhooks.map (fun w =>
    { namespace_ := w.namespace_, name := w.name, kind := "WebhookAuthenticator",
      apiGroup := authenticationGroup }) ++
  jwtAuthenticators.map (fun j =>
    { namespace_ := j.namespace_, name := j.name, kind := "JWTAuthenticator",
      apiGroup := authenticationGroup })

/-- Whether a cache key belongs to this engine's own API group/kind pairs
(the Go guard `key.APIGroup != group || (key.Kind != "WebhookAuthenticator"
&& key.Kind != "JWTAuthenticator")` skips the complement). -/
def ownKey (k : Key) : Prop :=
  k.apiGroup = authenticationGroup ∧
    (k.kind = "WebhookAuthenticator" ∨ k.kind = "JWTAuthenticator")

instance (k : Key) : Decidable (ownKey k) := by unfold ownKey; infer_instance

/-- The state threaded through the deletion loop: the live cache and the
keys whose values had `Close()` invoked, in invocation order. -/
structure GCState where
  cache : List (Key × Value)
  closed : List Key
deriving DecidableEq, Repr

/-- A cache key that a GC pass deletes: one of this engine's own kinds that
no declared resource implies (the complement of the Go guard
`key.APIGroup != group || (key.Kind != ... && key.Kind != ...)` combined
with absence from `authenticatorSet`). -/
def staleKey (implied : List Key) (k : Key) : Prop := ownKey k ∧ ¬ k ∈ implied

instance (implied : List Key) (k : Key) : Decidable (staleKey implied k) := by
  unfold staleKey; infer_instance

/-- One iteration of the deletion loop of `Sync`: skip foreign keys; for an
own key absent from the implied set, invoke `Close()` when the cached value
exposes it (`c.cache.Get(key)` then the `closable` type assertion) and
delete the entry. -/
def gcStep (implied : List Key) (st : GCState) (k : Key) : GCState :=
  if staleKey implied k then
    let closed := match (st.cache.find? (fun kv => decide (kv.1 = k))).map
        (fun kv => kv.2.closable) with
      | some true => st.closed ++ [k]
      | _ => st.closed
    { cache := st.cache.filter (fun kv => ¬ kv.1 = k), closed := closed }
  else st

/-- The `cachecleaner` controller's `Sync`: list both authenticator kinds,
index them by cache key, and delete from the cache every own-group/kind key
that is no longer backed by a declared resource, closing closable values.
The iteration is over the snapshot `c.cache.Keys()` of the initial cache's
keys. -/
def gcSync (webhooks jwtAuthenticators : List NamespacedName)
    (cache : List (Key × Value)) : GCState :=
  let implied := impliedKeys webhooks jwtAuthenticators
  (cache.map Prod.fst).foldl (gcStep implied) { cache := cache, closed := [] }

end Cachecleaner

namespace Upstreamwatcher

/-! Helper lemmas about the discovery cache and `validateIssuer`. -/

theorem validateEndpoint_error {parse : String → Except String URL} {p : OIDCProviderMeta}
    (cache : List CacheEntry) (called : Bool) {e : String}
    (h : parse p.authURL = Except.error e) :
    validateEndpoint parse cache called p =
      { cond := { type_ := typeOIDCDiscoverySucceeded, status := ConditionStatus.conditionFalse,
                  reason := reasonInvalidResponse,
                  message := "failed to parse authorization endpoint URL: " ++ e,
                  lastTransitionTime := 0, observedGeneration := 0 },
        endpoint := none, cache := cache, discoveryCalled := called } := by
  simp [validateEndpoint, h]

theorem validateEndpoint_badScheme {parse : String → Except String URL} {p : OIDCProviderMeta}
    (cache : List CacheEntry) (called : Bool) {u0 : URL}
    (h : parse p.authURL = Except.ok u0) (hs : ¬ u0.scheme = "https") :
    validateEndpoint parse cache called p =
      { cond := { type_ := typeOIDCDiscoverySucceeded, status := ConditionStatus.conditionFalse,
                  reason := reasonInvalidResponse,
                  message := "authorization endpoint URL scheme must be \"https\", not \""
                    ++ u0.scheme ++ "\"",
                  lastTransitionTime := 0, observedGeneration := 0 },
        endpoint := none, cache := cache, discoveryCalled := called } := by
  simp [validateEndpoint, h, hs]

theorem validateEndpoint_ok {parse : String → Except String URL} {p : OIDCProviderMeta}
    (cache : List CacheEntry) (called : Bool) {u0 : URL}
    (h : parse p.authURL = Except.ok u0) (hs : u0.scheme = "https") :
    validateEndpoint parse cache called p =
      { cond := { type_ := typeOIDCDiscoverySucceeded, status := ConditionStatus.conditionTrue,
                  reason := reasonSuccess, message := "discovered issuer configuration",
                  lastTransitionTime := 0, observedGeneration := 0 },
        endpoint := some u0, cache := cache, discoveryCalled := called } := by
  simp [validateEndpoint, h, hs]

/-- The condition and endpoint computed by `validateEndpoint` do not depend
on the cache state or the `called` flag, which are passed through. -/
theorem validateEndpoint_parts (parse : String → Except String URL) (cache : List CacheEntry)
    (called : Bool) (p : OIDCProviderMeta) :
    validateEndpoint parse cache called p =
      { cond := (validateEndpoint parse [] false p).cond
        endpoint := (validateEndpoint parse [] false p).endpoint
        cache := cache, discoveryCalled := called } := by
  cases h : parse p.authURL with
  | error e => simp [validateEndpoint, h]
  | ok u0 =>
    by_cases hs : u0.scheme = "https" <;> simp [validateEndpoint, h, hs]

theorem validateIssuer_hit {discover : String → Option OIDCProviderMeta}
    {parse : String → Except String URL} {cache : List CacheEntry} {now : Nat}
    {issuer : String} {p : OIDCProviderMeta} (h : cacheGet cache now issuer = some p) :
    validateIssuer discover parse cache now issuer = validateEndpoint parse cache false p := by
  simp [validateIssuer, h]

theorem validateIssuer_miss_fail {discover : String → Option OIDCProviderMeta}
    {parse : String → Except String URL} {cache : List CacheEntry} {now : Nat}
    {issuer : String} (h1 : cacheGet cache now issuer = none) (h2 : discover issuer = none) :
    validateIssuer discover parse cache now issuer =
      { cond := unreachableCondition issuer, endpoint := none, cache := cache,
        discoveryCalled := true } := by
  simp [validateIssuer, h1, h2]

theorem validateIssuer_miss_ok {discover : String → Option OIDCProviderMeta}
    {parse : String → Except String URL} {cache : List CacheEntry} {now : Nat}
    {issuer : String} {p : OIDCProviderMeta} (h1 : cacheGet cache now issuer = none)
    (h2 : discover issuer = some p) :
    validateIssuer discover parse cache now issuer =
      validateEndpoint parse (cacheSet cache now validatorCacheTTL issuer p) true p := by
  simp [validateIssuer, h1, h2]

theorem cacheGet_some {c : List CacheEntry} {now : Nat} {key : String} {p : OIDCProviderMeta}
    (h : cacheGet c now key = some p) : ∃ e ∈ c, e.key = key ∧ e.val = p := by
  unfold cacheGet at h
  cases hf : c.find? (fun e => e.key == key) with
  | none => rw [hf] at h; exact absurd h (by simp)
  | some e =>
    rw [hf] at h
    refine ⟨e, List.mem_of_find?_eq_some hf, ?_, ?_⟩
    · have := List.find?_some hf
      exact eq_of_beq this
    · by_cases ht : now ≤ e.expiry
      · simpa [ht] using h
      · simp [ht] at h

/-- Reading back the key just set: live within the TTL, expired after. -/
theorem cacheGet_cacheSet_self (c : List CacheEntry) (now ttl : Nat) (key : String)
    (v : OIDCProviderMeta) (t : Nat) :
    cacheGet (cacheSet c now ttl key v) t key =
      if t ≤ now + ttl then some v else none := by
  unfold cacheGet cacheSet
  simp [List.find?]

/-- The ways `validateIssuer` obtains provider metadata: from a live cache
entry, or from a fresh successful discovery call after a cache miss. -/
def obtainedProvider (discover : String → Option OIDCProviderMeta) (cache : List CacheEntry)
    (now : Nat) (issuer : String) (p : OIDCProviderMeta) : Prop :=
  cacheGet cache now issuer = some p ∨
    (cacheGet cache now issuer = none ∧ discover issuer = some p)

/-- Case analysis of `validateEndpoint`: a parse failure or a non-https
scheme yields False/InvalidResponse with no endpoint; the condition is True
exactly when the endpoint parses with scheme https, in which case it is
attached to the result with reason Success. -/
theorem validateEndpoint_status_cases (parse : String → Except String URL)
    (cache : List CacheEntry) (called : Bool) (p : OIDCProviderMeta) :
    (((∃ e, parse p.authURL = Except.error e) ∨
        (∃ u0, parse p.authURL = Except.ok u0 ∧ ¬ u0.scheme = "https")) →
      (validateEndpoint parse cache called p).cond.status = ConditionStatus.conditionFalse ∧
      (validateEndpoint parse cache called p).cond.reason = reasonInvalidResponse ∧
      (validateEndpoint parse cache called p).endpoint = none) ∧
    ((validateEndpoint parse cache called p).cond.status = ConditionStatus.conditionTrue ↔
      ∃ u0, parse p.authURL = Except.ok u0 ∧ u0.scheme = "https" ∧
        (validateEndpoint parse cache called p).endpoint = some u0 ∧
        (validateEndpoint parse cache called p).cond.reason = reasonSuccess) := by
  cases h : parse p.authURL with
  | error e => simp [validateEndpoint_error cache called h, h]
  | ok u0 =>
    by_cases hs : u0.scheme = "https"
    · simp [validateEndpoint_ok cache called h hs, h, hs]
    · simp [validateEndpoint_badScheme cache called h hs, h, hs]

/-! Types and statuses of the conditions produced by the validators. -/

theorem validateSecret_cond_type (secrets : String → String → Option Secret)
    (u : UpstreamOIDCProvider) :
    (validateSecret secrets u).1.type_ = typeClientCredsValid := by
  cases h : secrets u.namespace_ u.spec.client.secretName with
  | none => simp [validateSecret, h]
  | some s =>
    simp only [validateSecret, h]
    split_ifs <;> rfl

theorem validateSecret_status_not_unknown (secrets : String → String → Option Secret)
    (u : UpstreamOIDCProvider) :
    ¬ (validateSecret secrets u).1.status = ConditionStatus.conditionUnknown := by
  cases h : secrets u.namespace_ u.spec.client.secretName with
  | none => simp [validateSecret, h]
  | some s =>
    simp only [validateSecret, h]
    split_ifs <;> simp

theorem validateEndpoint_cond_type (parse : String → Except String URL)
    (cache : List CacheEntry) (called : Bool) (p : OIDCProviderMeta) :
    (validateEndpoint parse cache called p).cond.type_ = typeOIDCDiscoverySucceeded := by
  cases h : parse p.authURL with
  | error e => rw [validateEndpoint_error cache called h]
  | ok u0 =>
    by_cases hs : u0.scheme = "https"
    · rw [validateEndpoint_ok cache called h hs]
    · rw [validateEndpoint_badScheme cache called h hs]

theorem validateEndpoint_status_not_unknown (parse : String → Except String URL)
    (cache : List CacheEntry) (called : Bool) (p : OIDCProviderMeta) :
    ¬ (validateEndpoint parse cache called p).cond.status =
      ConditionStatus.conditionUnknown := by
  cases h : parse p.authURL with
  | error e => rw [validateEndpoint_error cache called h]; simp
  | ok u0 =>
    by_cases hs : u0.scheme = "https"
    · rw [validateEndpoint_ok cache called h hs]; simp
    · rw [validateEndpoint_badScheme cache called h hs]; simp

theorem validateIssuer_cond_type (discover : String → Option OIDCProviderMeta)
    (parse : String → Except String URL) (cache : List CacheEntry) (now : Nat)
    (issuer : String) :
    (validateIssuer discover parse cache now issuer).cond.type_ =
      typeOIDCDiscoverySucceeded := by
  cases hget : cacheGet cache now issuer with
  | some p => rw [validateIssuer_hit hget]; exact validateEndpoint_cond_type parse cache false p
  | none =>
    cases hd : discover issuer with
    | none => rw [validateIssuer_miss_fail hget hd]; rfl
    | some p =>
      rw [validateIssuer_miss_ok hget hd]
      exact validateEndpoint_cond_type parse (cacheSet cache now validatorCacheTTL issuer p) true p

theorem validateIssuer_status_not_unknown (discover : String → Option OIDCProviderMeta)
    (parse : String → Except String URL) (cache : List CacheEntry) (now : Nat)
    (issuer : String) :
    ¬ (validateIssuer discover parse cache now issuer).cond.status =
      ConditionStatus.conditionUnknown := by
  cases hget : cacheGet cache now issuer with
  | some p =>
    rw [validateIssuer_hit hget]
    exact validateEndpoint_status_not_unknown parse cache false p
  | none =>
    cases hd : discover issuer with
    | none => rw [validateIssuer_miss_fail hget hd]; simp [unreachableCondition]
    | some p =>
      rw [validateIssuer_miss_ok hget hd]
      exact validateEndpoint_status_not_unknown parse
        (cacheSet cache now validatorCacheTTL issuer p) true p

/-! Coherence of the discovery cache with the transport, used for the
idempotence property. -/

/-- Every cache entry's value is what a live discovery call for its key
returns ("no change to external discovery results"). -/
def coherentCache (discover : String → Option OIDCProviderMeta)
    (c : List CacheEntry) : Prop :=
  ∀ e ∈ c, discover e.key = some e.val

theorem coherentCache_cacheSet {discover : String → Option OIDCProviderMeta}
    {c : List CacheEntry} (h : coherentCache discover c) {key : String}
    {v : OIDCProviderMeta} (hv : discover key = some v) (now ttl : Nat) :
    coherentCache discover (cacheSet c now ttl key v) := by
  intro e he
  rcases List.mem_cons.mp he with rfl | he'
  · exact hv
  · exact h e (List.mem_of_mem_filter he')

theorem validateIssuer_coherent {discover : String → Option OIDCProviderMeta}
    {parse : String → Except String URL} {c : List CacheEntry} {now : Nat}
    {issuer : String} (h : coherentCache discover c) :
    coherentCache discover (validateIssuer discover parse c now issuer).cache := by
  cases hget : cacheGet c now issuer with
  | some p => rw [validateIssuer_hit hget, validateEndpoint_parts]; exact h
  | none =>
    cases hd : discover issuer with
    | none => rw [validateIssuer_miss_fail hget hd]; exact h
    | some p =>
      rw [validateIssuer_miss_ok hget hd, validateEndpoint_parts]
      exact coherentCache_cacheSet h hd now validatorCacheTTL

/-- The issuer validation outcome (condition and endpoint) determined by
the transport alone; under a coherent cache, `validateIssuer` computes
exactly this, whether it hits the cache or not. -/
def issuerOutcome (discover : String → Option OIDCProviderMeta)
    (parse : String → Except String URL) (issuer : String) : Condition × Option URL :=
  match discover issuer with
  | none => (unreachableCondition issuer, none)
  | some p =>
    ((validateEndpoint parse [] false p).cond, (validateEndpoint parse [] false p).endpoint)

theorem validateIssuer_outcome_of_coherent {discover : String → Option OIDCProviderMeta}
    {parse : String → Except String URL} {c : List CacheEntry} {now : Nat}
    {issuer : String} (h : coherentCache discover c) :
    ((validateIssuer discover parse c now issuer).cond,
      (validateIssuer discover parse c now issuer).endpoint) =
      issuerOutcome discover parse issuer := by
  cases hget : cacheGet c now issuer with
  | some p =>
    obtain ⟨e, he, hek, hev⟩ := cacheGet_some hget
    have hd : discover issuer = some p := by rw [← hek, h e he, hev]
    rw [validateIssuer_hit hget, validateEndpoint_parts]
    unfold issuerOutcome
    rw [hd]
  | none =>
    cases hd : discover issuer with
    | none =>
      rw [validateIssuer_miss_fail hget hd]
      unfold issuerOutcome
      rw [hd]
    | some p =>
      rw [validateIssuer_miss_ok hget hd, validateEndpoint_parts]
      unfold issuerOutcome
      rw [hd]

theorem issuerOutcome_cond_type (discover : String → Option OIDCProviderMeta)
    (parse : String → Except String URL) (issuer : String) :
    (issuerOutcome discover parse issuer).1.type_ = typeOIDCDiscoverySucceeded := by
  unfold issuerOutcome
  cases discover issuer with
  | none => rfl
  | some p => exact validateEndpoint_cond_type parse [] false p

/-- The published list as the specification describes it: walking the
listed resources in order (threading the discovery cache exactly as the
pass does), a resource contributes its built provider iff every computed
condition has status True. This definition follows the spec's words and is
compared against `Sync` in the snapshot-correctness theorem. -/
def publishedPerSpec (secrets : String → String → Option Secret)
    (discover : String → Option OIDCProviderMeta) (parse : String → Except String URL)
    (now : Nat) :
    List UpstreamOIDCProvider → List CacheEntry → List UpstreamOIDCIdentityProvider
  | [], _ => []
  | u :: rest, cache =>
    let sres := validateSecret secrets u
    let ires := validateIssuer discover parse cache now u.spec.issuer
    (if ([sres.1, ires.cond]).all (fun c => c.status = ConditionStatus.conditionTrue)
      then [buildResult u sres.2 ires.endpoint] else []) ++
    publishedPerSpec secrets discover parse now rest ires.cache

/-- The provider list contribution of one resource, rewritten from the
"no condition is False" test the code makes to the "every condition is
True" test of the spec (equivalent because the validators never produce an
Unknown status). -/
theorem validateUpstream_provider_toList (secrets : String → String → Option Secret)
    (discover : String → Option OIDCProviderMeta) (parse : String → Except String URL)
    (cache : List CacheEntry) (now : Nat) (u : UpstreamOIDCProvider) :
    (validateUpstream secrets discover parse cache now u).provider.toList =
      (if ([(validateSecret secrets u).1,
            (validateIssuer discover parse cache now u.spec.issuer).cond]).all
          (fun c => c.status = ConditionStatus.conditionTrue)
        then [buildResult u (validateSecret secrets u).2
          (validateIssuer discover parse cache now u.spec.issuer).endpoint]
        else []) := by
  have h1 := validateSecret_status_not_unknown secrets u
  have h2 := validateIssuer_status_not_unknown discover parse cache now u.spec.issuer
  simp only [validateUpstream]
  cases hs1 : (validateSecret secrets u).1.status <;>
    cases hs2 : (validateIssuer discover parse cache now u.spec.issuer).cond.status <;>
    simp_all

/-- The providers collected by the sync loop are exactly those of the
per-spec characterization. -/
theorem syncLoop_vals (secrets : String → String → Option Secret)
    (discover : String → Option OIDCProviderMeta) (parse : String → Except String URL)
    (now : Nat) (ups : List UpstreamOIDCProvider) : ∀ cache,
    (syncLoop secrets discover parse now ups cache).vals =
      publishedPerSpec secrets discover parse now ups cache := by
  induction ups with
  | nil => intro cache; rfl
  | cons u rest ih =>
    intro cache
    simp only [syncLoop, publishedPerSpec]
    rw [validateUpstream_provider_toList]
    have hc : (validateUpstream secrets discover parse cache now u).cache =
        (validateIssuer discover parse cache now u.spec.issuer).cache := rfl
    rw [hc, ih]

/-- The sync loop publishes at most one provider per listed resource, and
sets the requeue flag exactly when some resource contributed none. -/
theorem syncLoop_length_requeue (secrets : String → String → Option Secret)
    (discover : String → Option OIDCProviderMeta) (parse : String → Except String URL)
    (now : Nat) (ups : List UpstreamOIDCProvider) : ∀ cache,
    (syncLoop secrets discover parse now ups cache).vals.length ≤ ups.length ∧
    ((syncLoop secrets discover parse now ups cache).requeue = true ↔
      (syncLoop secrets discover parse now ups cache).vals.length < ups.length) := by
  induction ups with
  | nil => intro cache; simp [syncLoop]
  | cons u rest ih =>
    intro cache
    have ihc := ih (validateUpstream secrets discover parse cache now u).cache
    simp only [syncLoop]
    cases hp : (validateUpstream secrets discover parse cache now u).provider with
    | some v =>
      simp only [hp, Option.toList, Option.isNone, List.cons_append, List.nil_append,
        List.length_cons, Bool.false_or]
      exact ⟨Nat.succ_le_succ ihc.1,
        by rw [ihc.2]; exact ⟨Nat.succ_lt_succ, Nat.lt_of_succ_lt_succ⟩⟩
    | none =>
      simp only [hp, Option.toList, Option.isNone, List.nil_append, List.length_cons,
        Bool.true_or, true_iff]
      exact ⟨Nat.le_succ_of_le ihc.1, Nat.lt_succ_of_le ihc.1⟩

/-! Lemmas about `lastIdxOfType`, `mergeCondition`, `mergeAll` and
`updateStatus`. -/

theorem set_getElem?_eq {α : Type} : ∀ (l : List α) (i : Nat) (a : α),
    l[i]? = some a → l.set i a = l
  | [], i, a, h => by simp at h
  | x :: xs, 0, a, h => by
    simp only [List.getElem?_cons_zero, Option.some.injEq] at h
    simp [h]
  | x :: xs, i + 1, a, h => by
    simp only [List.getElem?_cons_succ] at h
    simp [set_getElem?_eq xs i a h]

theorem lastIdxOfType_eq_none_iff (l : List Condition) (t : String) :
    lastIdxOfType l t = none ↔ ∀ c ∈ l, ¬ c.type_ = t := by
  induction l with
  | nil => simp [lastIdxOfType]
  | cons c rest ih =>
    simp only [lastIdxOfType]
    cases h : lastIdxOfType rest t with
    | some i =>
      constructor
      · intro hc; exact absurd hc (by simp)
      · intro hall
        have hnone : lastIdxOfType rest t = none :=
          ih.mpr fun x hx => hall x (List.mem_cons_of_mem _ hx)
        rw [h] at hnone
        exact absurd hnone (by simp)
    | none =>
      by_cases hct : c.type_ = t
      · simp only [if_pos hct]
        constructor
        · intro hc; exact absurd hc (by simp)
        · intro hall; exact absurd hct (hall c (List.mem_cons_self c rest))
      · simp only [if_neg hct]
        constructor
        · intro _ x hx
          rcases List.mem_cons.mp hx with rfl | hx'
          · exact hct
          · exact ih.mp h x hx'
        · intro _; trivial

theorem lastIdxOfType_getElem? {l : List Condition} {t : String} : ∀ {i : Nat},
    lastIdxOfType l t = some i → ∃ c, l[i]? = some c ∧ c.type_ = t := by
  induction l with
  | nil => intro i h; simp [lastIdxOfType] at h
  | cons c rest ih =>
    intro i h
    simp only [lastIdxOfType] at h
    cases hr : lastIdxOfType rest t with
    | some j =>
      rw [hr] at h
      simp only [Option.some.injEq] at h
      subst h
      obtain ⟨c', hc', ht'⟩ := ih hr
      exact ⟨c', by simpa using hc', ht'⟩
    | none =>
      rw [hr] at h
      by_cases hct : c.type_ = t
      · rw [if_pos hct] at h
        simp only [Option.some.injEq] at h
        subst h
        exact ⟨c, by simp, hct⟩
      · rw [if_neg hct] at h
        exact absurd h (by simp)

/-- Under distinct types, a member of the list is found by
`lastIdxOfType` at its own position. -/
theorem lastIdxOfType_of_mem_nodup {l : List Condition}
    (hnd : (l.map Condition.type_).Nodup) {e : Condition} (he : e ∈ l) :
    ∃ i, lastIdxOfType l e.type_ = some i ∧ l[i]? = some e := by
  induction l with
  | nil => simp at he
  | cons c rest ih =>
    rw [List.map_cons, List.nodup_cons] at hnd
    rcases List.mem_cons.mp he with rfl | he'
    · have hnone : lastIdxOfType rest e.type_ = none := by
        rw [lastIdxOfType_eq_none_iff]
        intro x hx hxt
        exact hnd.1 (hxt ▸ List.mem_map_of_mem Condition.type_ hx)
      refine ⟨0, ?_, by simp⟩
      simp [lastIdxOfType, hnone]
    · obtain ⟨i, hidx, hget⟩ := ih hnd.2 he'
      refine ⟨i + 1, ?_, by simpa using hget⟩
      simp [lastIdxOfType, hidx]

/-- The types in the merged list: the new condition's type is appended when
absent, and the multiset of types is otherwise unchanged. -/
theorem mergeCondition_map_type (l : List Condition) (nw : Condition) :
    (mergeCondition l nw).1.map Condition.type_ =
      (match lastIdxOfType l nw.type_ with
        | none => l.map Condition.type_ ++ [nw.type_]
        | some _ => l.map Condition.type_) := by
  unfold mergeCondition
  cases h : lastIdxOfType l nw.type_ with
  | none => simp
  | some i =>
    obtain ⟨c, hc, ht⟩ := lastIdxOfType_getElem? h
    have hgd : l.getD i nw = c := by rw [List.getD_eq_getElem?_getD, hc]; rfl
    dsimp only
    rw [hgd]
    by_cases heq : c = (if c.status = nw.status
        then { nw with lastTransitionTime := c.lastTransitionTime } else nw)
    · rw [if_neg (not_not_intro heq)]
    · rw [if_pos heq, List.map_set]
      apply set_getElem?_eq
      rw [List.getElem?_map, hc]
      have htyp : (if c.status = nw.status
          then { nw with lastTransitionTime := c.lastTransitionTime } else nw).type_ =
            c.type_ := by
        split_ifs <;> exact ht.symm
      rw [Option.map_some', htyp]

theorem mergeCondition_nodup {l : List Condition} {nw : Condition}
    (h : (l.map Condition.type_).Nodup) :
    ((mergeCondition l nw).1.map Condition.type_).Nodup := by
  rw [mergeCondition_map_type]
  cases hidx : lastIdxOfType l nw.type_ with
  | some i => exact h
  | none =>
    have hnotmem : nw.type_ ∉ l.map Condition.type_ := by
      intro hmem
      obtain ⟨c, hc, htc⟩ := List.mem_map.mp hmem
      exact (lastIdxOfType_eq_none_iff l nw.type_).mp hidx c hc htc
    rw [List.nodup_append]
    exact ⟨h, List.nodup_singleton _, by
      intro a ha hb
      rw [List.mem_singleton] at hb
      exact hnotmem (hb ▸ ha)⟩

/-- `hasEntryForm l c` says the list contains an entry that agrees with `c`
on every field except possibly the transition time. -/
def hasEntryForm (l : List Condition) (c : Condition) : Prop :=
  ∃ e ∈ l, e = { c with lastTransitionTime := e.lastTransitionTime }

/-- A no-op merge: if the list already contains an entry of the new
condition's type differing at most in transition time, `mergeCondition`
changes nothing and reports no change. -/
theorem mergeCondition_noop {l : List Condition} {nw : Condition}
    (hnd : (l.map Condition.type_).Nodup) (hform : hasEntryForm l nw) :
    mergeCondition l nw = (l, false) := by
  obtain ⟨e, he, hfe⟩ := hform
  have htype : e.type_ = nw.type_ := by rw [hfe]
  have hst : e.status = nw.status := by rw [hfe]
  obtain ⟨i, hidx, hget⟩ := lastIdxOfType_of_mem_nodup hnd he
  rw [htype] at hidx
  unfold mergeCondition
  rw [hidx]
  dsimp only
  have hold : l.getD i nw = e := by
    rw [List.getD_eq_getElem?_getD, hget]; rfl
  rw [hold, if_pos hst]
  have : e = { nw with lastTransitionTime := e.lastTransitionTime } := hfe
  rw [if_neg (by simpa using this)]

/-- After merging, the list contains an entry of the merged condition's
form. -/
theorem mergeCondition_hasEntryForm (l : List Condition) (nw : Condition) :
    hasEntryForm (mergeCondition l nw).1 nw := by
  unfold mergeCondition
  cases h : lastIdxOfType l nw.type_ with
  | none =>
    exact ⟨nw, by simp, rfl⟩
  | some i =>
    obtain ⟨c, hc, ht⟩ := lastIdxOfType_getElem? h
    have hlt : i < l.length := (List.getElem?_eq_some.mp hc).1
    have hgd : l.getD i nw = c := by rw [List.getD_eq_getElem?_getD, hc]; rfl
    have hmem : c ∈ l := List.get?_mem (by rw [List.get?_eq_getElem?, hc])
    dsimp only
    rw [hgd]
    by_cases heq : c = (if c.status = nw.status
        then { nw with lastTransitionTime := c.lastTransitionTime } else nw)
    · rw [if_neg (not_not_intro heq)]
      refine ⟨c, hmem, ?_⟩
      by_cases hst : c.status = nw.status
      · rw [if_pos hst] at heq; exact heq
      · rw [if_neg hst] at heq
        exact absurd (by rw [heq]) hst
    · rw [if_pos heq]
      refine ⟨(if c.status = nw.status
          then { nw with lastTransitionTime := c.lastTransitionTime } else nw), ?_, ?_⟩
      · apply List.get?_mem
        rw [List.get?_eq_getElem?, List.getElem?_set_self hlt]
      · by_cases hst : c.status = nw.status
        · rw [if_pos hst]
        · rw [if_neg hst]

/-- Merging a condition of a different type preserves an entry form. -/
theorem mergeCondition_preserves_form {l : List Condition} {nw c : Condition}
    (hne : ¬ c.type_ = nw.type_) (h : hasEntryForm l c) :
    hasEntryForm (mergeCondition l nw).1 c := by
  obtain ⟨e, he, hfe⟩ := h
  have hect : e.type_ = c.type_ := by rw [hfe]
  unfold mergeCondition
  cases hidx : lastIdxOfType l nw.type_ with
  | none => exact ⟨e, List.mem_append_left _ he, hfe⟩
  | some i =>
    obtain ⟨ci, hci, hti⟩ := lastIdxOfType_getElem? hidx
    have hgd : l.getD i nw = ci := by rw [List.getD_eq_getElem?_getD, hci]; rfl
    dsimp only
    rw [hgd]
    by_cases heq : ci = (if ci.status = nw.status
        then { nw with lastTransitionTime := ci.lastTransitionTime } else nw)
    · rw [if_neg (not_not_intro heq)]
      exact ⟨e, he, hfe⟩
    · rw [if_pos heq]
      obtain ⟨j, hj⟩ := List.mem_iff_getElem?.mp he
      have hij : i ≠ j := by
        intro hij
        rw [← hij, hci] at hj
        have hce : ci = e := by simpa using hj
        rw [hce, hect] at hti
        exact hne hti
      refine ⟨e, ?_, hfe⟩
      apply List.get?_mem
      rw [List.get?_eq_getElem?, List.getElem?_set_ne hij, hj]

theorem mergeAll_nodup {l : List Condition} (cs : List Condition)
    (h : (l.map Condition.type_).Nodup) :
    ((mergeAll l cs).map Condition.type_).Nodup := by
  induction cs generalizing l with
  | nil => exact h
  | cons c cs' ih => exact ih (mergeCondition_nodup h)

theorem mergeAll_preserves_form {c : Condition} (cs : List Condition)
    (hne : ∀ c' ∈ cs, ¬ c.type_ = c'.type_) {l : List Condition}
    (h : hasEntryForm l c) : hasEntryForm (mergeAll l cs) c := by
  induction cs generalizing l with
  | nil => exact h
  | cons c' cs' ih =>
    exact ih (fun x hx => hne x (List.mem_cons_of_mem _ hx))
      (mergeCondition_preserves_form (hne c' (List.mem_cons_self _ _)) h)

theorem mergeAll_hasEntryForm (cs : List Condition)
    (hcs : (cs.map Condition.type_).Nodup) (l : List Condition) :
    ∀ c ∈ cs, hasEntryForm (mergeAll l cs) c := by
  induction cs generalizing l with
  | nil => intro c hc; simp at hc
  | cons c0 cs' ih =>
    rw [List.map_cons, List.nodup_cons] at hcs
    intro c hc
    rcases List.mem_cons.mp hc with rfl | hc'
    · have : hasEntryForm (mergeCondition l c).1 c := mergeCondition_hasEntryForm l c
      exact mergeAll_preserves_form cs'
        (fun c' hc' hteq => hcs.1 (hteq ▸ List.mem_map_of_mem Condition.type_ hc')) this
    · exact ih hcs.2 (mergeCondition l c0).1 c hc'

theorem mergeAll_noop {l : List Condition} (cs : List Condition)
    (hnd : (l.map Condition.type_).Nodup)
    (h : ∀ c ∈ cs, hasEntryForm l c) : mergeAll l cs = l := by
  induction cs with
  | nil => rfl
  | cons c cs' ih =>
    have hmc : mergeCondition l c = (l, false) :=
      mergeCondition_noop hnd (h c (List.mem_cons_self _ _))
    show mergeAll (mergeCondition l c).1 cs' = l
    rw [hmc]
    exact ih fun x hx => h x (List.mem_cons_of_mem _ hx)

theorem hasEntryForm_perm {l l' : List Condition} (hp : l.Perm l') {c : Condition}
    (h : hasEntryForm l c) : hasEntryForm l' c := by
  obtain ⟨e, he, hf⟩ := h
  exact ⟨e, hp.mem_iff.mp he, hf⟩

/-- `updateStatus` only writes the status sub-object; the identity,
generation and spec are unchanged. -/
theorem updateStatus_meta (now : Nat) (u : UpstreamOIDCProvider) (conds : List Condition) :
    (updateStatus now u conds).1.namespace_ = u.namespace_ ∧
    (updateStatus now u conds).1.name = u.name ∧
    (updateStatus now u conds).1.generation = u.generation ∧
    (updateStatus now u conds).1.spec = u.spec :=
  ⟨rfl, rfl, rfl, rfl⟩

/-- Postconditions of `updateStatus`: distinct types, sortedness, an entry
of each merged condition's form, and the recomputed phase. -/
theorem updateStatus_post (t : Nat) (u : UpstreamOIDCProvider) (conds : List Condition)
    (hnd : ((u.status.conditions).map Condition.type_).Nodup)
    (hcs : (conds.map Condition.type_).Nodup) :
    (((updateStatus t u conds).1.status.conditions).map Condition.type_).Nodup ∧
    List.Sorted condLE (updateStatus t u conds).1.status.conditions ∧
    (∀ c ∈ conds, hasEntryForm (updateStatus t u conds).1.status.conditions
      { c with lastTransitionTime := t, observedGeneration := u.generation }) ∧
    (updateStatus t u conds).1.status.phase =
      (if conds.any (fun c => c.status = ConditionStatus.conditionFalse)
        then phaseError else phaseReady) := by
  have hconds : (updateStatus t u conds).1.status.conditions =
      List.insertionSort condLE (mergeAll u.status.conditions
        (conds.map fun c =>
          { c with lastTransitionTime := t, observedGeneration := u.generation })) := rfl
  have hft : ((conds.map fun c =>
      { c with lastTransitionTime := t, observedGeneration := u.generation }).map
        Condition.type_) = conds.map Condition.type_ := by
    rw [List.map_map]; rfl
  refine ⟨?_, ?_, ?_, ?_⟩
  · rw [hconds]
    exact ((List.perm_insertionSort condLE _).map Condition.type_).nodup_iff.mpr
      (mergeAll_nodup _ hnd)
  · rw [hconds]
    exact List.sorted_insertionSort condLE _
  · intro c hc
    rw [hconds]
    refine hasEntryForm_perm (List.perm_insertionSort condLE _).symm ?_
    exact mergeAll_hasEntryForm _ (hft.symm ▸ hcs) u.status.conditions _
      (List.mem_map_of_mem _ hc)
  · have hphase : (updateStatus t u conds).1.status.phase =
        (if List.any (conds.map fun c =>
            { c with lastTransitionTime := t, observedGeneration := u.generation })
            (fun c => c.status = ConditionStatus.conditionFalse)
          then phaseError else phaseReady) := rfl
    rw [hphase, List.any_map]
    rfl

/-- A pass whose conditions are already reflected in the stored status (up
to transition times), with the phase already recomputed, performs no
mutation and issues no status write. -/
theorem updateStatus_noop (t : Nat) (v : UpstreamOIDCProvider) (conds : List Condition)
    (hnod : ((v.status.conditions).map Condition.type_).Nodup)
    (hsorted : List.Sorted condLE v.status.conditions)
    (hforms : ∀ c ∈ conds, hasEntryForm v.status.conditions
      { c with lastTransitionTime := t, observedGeneration := v.generation })
    (hphase : v.status.phase =
      (if conds.any (fun c => c.status = ConditionStatus.conditionFalse)
        then phaseError else phaseReady)) :
    updateStatus t v conds = (v, false) := by
  have hnoop : mergeAll v.status.conditions (conds.map fun c =>
      { c with lastTransitionTime := t, observedGeneration := v.generation }) =
      v.status.conditions := by
    refine mergeAll_noop _ hnod ?_
    intro c2 hc2
    obtain ⟨c, hc, rfl⟩ := List.mem_map.mp hc2
    exact hforms c hc
  have hph : (updateStatus t v conds).1.status.phase = v.status.phase := by
    have h0 : (updateStatus t v conds).1.status.phase =
        (if List.any (conds.map fun c =>
            { c with lastTransitionTime := t, observedGeneration := v.generation })
            (fun c => c.status = ConditionStatus.conditionFalse)
          then phaseError else phaseReady) := rfl
    rw [h0, List.any_map, hphase]
    rfl
  have hcd : (updateStatus t v conds).1.status.conditions = v.status.conditions := by
    have h0 : (updateStatus t v conds).1.status.conditions =
        List.insertionSort condLE (mergeAll v.status.conditions
          (conds.map fun c =>
            { c with lastTransitionTime := t, observedGeneration := v.generation })) := rfl
    rw [h0, hnoop, hsorted.insertionSort_eq]
  have hst : (updateStatus t v conds).1.status = v.status := by
    have h0 : (updateStatus t v conds).1.status =
        { phase := (updateStatus t v conds).1.status.phase
          conditions := (updateStatus t v conds).1.status.conditions } := rfl
    rw [h0, hph, hcd]
  have h1 : (updateStatus t v conds).1 = v := by
    have h0 : (updateStatus t v conds).1 =
        { namespace_ := (updateStatus t v conds).1.namespace_
          name := (updateStatus t v conds).1.name
          generation := (updateStatus t v conds).1.generation
          spec := (updateStatus t v conds).1.spec
          status := (updateStatus t v conds).1.status } := rfl
    rw [h0, hst, (updateStatus_meta t v conds).1, (updateStatus_meta t v conds).2.1,
      (updateStatus_meta t v conds).2.2.1, (updateStatus_meta t v conds).2.2.2]
  have h2 : (updateStatus t v conds).2 = false := by
    show decide (¬ (updateStatus t v conds).1 = v) = false
    rw [h1]
    simp
  have hpair : updateStatus t v conds =
      ((updateStatus t v conds).1, (updateStatus t v conds).2) := rfl
  rw [hpair, h1, h2]

/-- The condition list `validateUpstream` computes, expressed through the
transport-determined issuer outcome (valid under a coherent cache). -/
def upstreamConds (secrets : String → String → Option Secret)
    (discover : String → Option OIDCProviderMeta) (parse : String → Except String URL)
    (u : UpstreamOIDCProvider) : List Condition :=
  [(validateSecret secrets u).1, (issuerOutcome discover parse u.spec.issuer).1]

theorem upstreamConds_types (secrets : String → String → Option Secret)
    (discover : String → Option OIDCProviderMeta) (parse : String → Except String URL)
    (u : UpstreamOIDCProvider) :
    (upstreamConds secrets discover parse u).map Condition.type_ =
      [typeClientCredsValid, typeOIDCDiscoverySucceeded] := by
  simp [upstreamConds, validateSecret_cond_type, issuerOutcome_cond_type]

theorem upstreamConds_types_nodup (secrets : String → String → Option Secret)
    (discover : String → Option OIDCProviderMeta) (parse : String → Except String URL)
    (u : UpstreamOIDCProvider) :
    ((upstreamConds secrets discover parse u).map Condition.type_).Nodup := by
  rw [upstreamConds_types]
  decide

/-- The provider value determined by the validators alone (valid under a
coherent cache). -/
def upstreamOutcome (secrets : String → String → Option Secret)
    (discover : String → Option OIDCProviderMeta) (parse : String → Except String URL)
    (u : UpstreamOIDCProvider) : Option UpstreamOIDCIdentityProvider :=
  if (upstreamConds secrets discover parse u).all
      (fun c => ¬ c.status = ConditionStatus.conditionFalse)
  then some (buildResult u (validateSecret secrets u).2
    (issuerOutcome discover parse u.spec.issuer).2)
  else none

/-- Under a coherent cache, every field of `validateUpstream` is determined
by the resource and the transports alone. -/
theorem validateUpstream_under_coherent {secrets : String → String → Option Secret}
    {discover : String → Option OIDCProviderMeta} {parse : String → Except String URL}
    {cache : List CacheEntry} {now : Nat} {u : UpstreamOIDCProvider}
    (h : coherentCache discover cache) :
    (validateUpstream secrets discover parse cache now u).conditions =
      upstreamConds secrets discover parse u ∧
    (validateUpstream secrets discover parse cache now u).provider =
      upstreamOutcome secrets discover parse u ∧
    (validateUpstream secrets discover parse cache now u).upstream =
      (updateStatus now u (upstreamConds secrets discover parse u)).1 ∧
    (validateUpstream secrets discover parse cache now u).wroteStatus =
      (updateStatus now u (upstreamConds secrets discover parse u)).2 := by
  have hout := @validateIssuer_outcome_of_coherent discover parse cache now u.spec.issuer h
  have hcond : (validateIssuer discover parse cache now u.spec.issuer).cond =
      (issuerOutcome discover parse u.spec.issuer).1 := congrArg Prod.fst hout
  have hend : (validateIssuer discover parse cache now u.spec.issuer).endpoint =
      (issuerOutcome discover parse u.spec.issuer).2 := congrArg Prod.snd hout
  refine ⟨?_, ?_, ?_, ?_⟩
  · show [(validateSecret secrets u).1,
      (validateIssuer discover parse cache now u.spec.issuer).cond] =
      upstreamConds secrets discover parse u
    rw [hcond]
    rfl
  · show (if ([(validateSecret secrets u).1,
        (validateIssuer discover parse cache now u.spec.issuer).cond]).all
          (fun c => ¬ c.status = ConditionStatus.conditionFalse)
      then some (buildResult u (validateSecret secrets u).2
        (validateIssuer discover parse cache now u.spec.issuer).endpoint)
      else none) = upstreamOutcome secrets discover parse u
    rw [hcond, hend]
    rfl
  · show (updateStatus now u [(validateSecret secrets u).1,
      (validateIssuer discover parse cache now u.spec.issuer).cond]).1 =
      (updateStatus now u (upstreamConds secrets discover parse u)).1
    rw [hcond]
    rfl
  · show (updateStatus now u [(validateSecret secrets u).1,
      (validateIssuer discover parse cache now u.spec.issuer).cond]).2 =
      (updateStatus now u (upstreamConds secrets discover parse u)).2
    rw [hcond]
    rfl

/-- `validateSecret` reads only the namespace and spec. -/
theorem validateSecret_status_congr (secrets : String → String → Option Secret)
    {u u' : UpstreamOIDCProvider} (hns : u'.namespace_ = u.namespace_)
    (hspec : u'.spec = u.spec) :
    validateSecret secrets u' = validateSecret secrets u := by
  unfold validateSecret
  rw [hns, hspec]

/-- `buildResult` reads only the name and spec. -/
theorem buildResult_congr {u u' : UpstreamOIDCProvider} (hname : u'.name = u.name)
    (hspec : u'.spec = u.spec) (a : Option String) (b : Option URL) :
    buildResult u' a b = buildResult u a b := by
  unfold buildResult
  rw [hname, hspec]

theorem upstreamConds_congr (secrets : String → String → Option Secret)
    (discover : String → Option OIDCProviderMeta) (parse : String → Except String URL)
    {u u' : UpstreamOIDCProvider} (hns : u'.namespace_ = u.namespace_)
    (hspec : u'.spec = u.spec) :
    upstreamConds secrets discover parse u' = upstreamConds secrets discover parse u := by
  unfold upstreamConds
  rw [validateSecret_status_congr secrets hns hspec, hspec]

theorem upstreamOutcome_congr (secrets : String → String → Option Secret)
    (discover : String → Option OIDCProviderMeta) (parse : String → Except String URL)
    {u u' : UpstreamOIDCProvider} (hns : u'.namespace_ = u.namespace_)
    (hname : u'.name = u.name) (hspec : u'.spec = u.spec) :
    upstreamOutcome secrets discover parse u' = upstreamOutcome secrets discover parse u := by
  unfold upstreamOutcome
  rw [upstreamConds_congr secrets discover parse hns hspec,
    validateSecret_status_congr secrets hns hspec, hspec, buildResult_congr hname hspec]

/-- The sync loop keeps the discovery cache coherent. -/
theorem syncLoop_coherent (secrets : String → String → Option Secret)
    (discover : String → Option OIDCProviderMeta) (parse : String → Except String URL)
    (t : Nat) : ∀ (ups : List UpstreamOIDCProvider) (c : List CacheEntry),
    coherentCache discover c →
    coherentCache discover (syncLoop secrets discover parse t ups c).cache := by
  intro ups
  induction ups with
  | nil => intro c hc; exact hc
  | cons u rest ih => intro c hc; exact ih _ (validateIssuer_coherent hc)

/-- Rerunning the sync loop on the resources left by a previous run, with
any coherent cache, produces the same providers and no status writes. -/
theorem syncLoop_idem (secrets : String → String → Option Secret)
    (discover : String → Option OIDCProviderMeta) (parse : String → Except String URL)
    (t1 t2 : Nat) : ∀ (ups : List UpstreamOIDCProvider) (c1 c2 : List CacheEntry),
    coherentCache discover c1 → coherentCache discover c2 →
    (∀ u ∈ ups, ((u.status.conditions).map Condition.type_).Nodup) →
    (syncLoop secrets discover parse t2
        (syncLoop secrets discover parse t1 ups c1).upstreams c2).vals =
      (syncLoop secrets discover parse t1 ups c1).vals ∧
    (syncLoop secrets discover parse t2
        (syncLoop secrets discover parse t1 ups c1).upstreams c2).statusWrites = 0 := by
  intro ups
  induction ups with
  | nil => intro c1 c2 _ _ _; exact ⟨rfl, rfl⟩
  | cons u rest ih =>
    intro c1 c2 hc1 hc2 hnds
    have hndu := hnds u (List.mem_cons_self _ _)
    have hndr : ∀ x ∈ rest, ((x.status.conditions).map Condition.type_).Nodup :=
      fun x hx => hnds x (List.mem_cons_of_mem _ hx)
    have hr1 := @validateUpstream_under_coherent secrets discover parse c1 t1 u hc1
    have hc1' : coherentCache discover
        (validateUpstream secrets discover parse c1 t1 u).cache :=
      validateIssuer_coherent hc1
    have hup1 : (validateUpstream secrets discover parse c1 t1 u).upstream =
        (updateStatus t1 u (upstreamConds secrets discover parse u)).1 := hr1.2.2.1
    have hns : (validateUpstream secrets discover parse c1 t1 u).upstream.namespace_ =
        u.namespace_ := by
      rw [hup1]
      exact (updateStatus_meta t1 u (upstreamConds secrets discover parse u)).1
    have hname : (validateUpstream secrets discover parse c1 t1 u).upstream.name =
        u.name := by
      rw [hup1]
      exact (updateStatus_meta t1 u (upstreamConds secrets discover parse u)).2.1
    have hspec : (validateUpstream secrets discover parse c1 t1 u).upstream.spec =
        u.spec := by
      rw [hup1]
      exact (updateStatus_meta t1 u (upstreamConds secrets discover parse u)).2.2.2
    have hr2 := @validateUpstream_under_coherent secrets discover parse c2 t2
      (validateUpstream secrets discover parse c1 t1 u).upstream hc2
    have hc2' : coherentCache discover (validateUpstream secrets discover parse c2 t2
        (validateUpstream secrets discover parse c1 t1 u).upstream).cache :=
      validateIssuer_coherent hc2
    have hcondseq : upstreamConds secrets discover parse
        (validateUpstream secrets discover parse c1 t1 u).upstream =
        upstreamConds secrets discover parse u :=
      upstreamConds_congr secrets discover parse hns hspec
    have hproveq : (validateUpstream secrets discover parse c2 t2
        (validateUpstream secrets discover parse c1 t1 u).upstream).provider =
        (validateUpstream secrets discover parse c1 t1 u).provider := by
      rw [hr2.2.1, hr1.2.1]
      exact upstreamOutcome_congr secrets discover parse hns hname hspec
    have hpost := updateStatus_post t1 u (upstreamConds secrets discover parse u) hndu
      (upstreamConds_types_nodup secrets discover parse u)
    have hnoop : updateStatus t2 (validateUpstream secrets discover parse c1 t1 u).upstream
        (upstreamConds secrets discover parse
          (validateUpstream secrets discover parse c1 t1 u).upstream) =
        ((validateUpstream secrets discover parse c1 t1 u).upstream, false) := by
      rw [hcondseq, hup1]
      refine updateStatus_noop t2 _ _ hpost.1 hpost.2.1 ?_ ?_
      · intro c hc
        exact hpost.2.2.1 c hc
      · exact hpost.2.2.2
    have hwrote2 : (validateUpstream secrets discover parse c2 t2
        (validateUpstream secrets discover parse c1 t1 u).upstream).wroteStatus = false := by
      rw [hr2.2.2.2, hnoop]
    have hih := ih (validateUpstream secrets discover parse c1 t1 u).cache
      (validateUpstream secrets discover parse c2 t2
        (validateUpstream secrets discover parse c1 t1 u).upstream).cache hc1' hc2' hndr
    constructor
    · show (validateUpstream secrets discover parse c2 t2
          (validateUpstream secrets discover parse c1 t1 u).upstream).provider.toList ++
        (syncLoop secrets discover parse t2
          (syncLoop secrets discover parse t1 rest
            (validateUpstream secrets discover parse c1 t1 u).cache).upstreams
          (validateUpstream secrets discover parse c2 t2
            (validateUpstream secrets discover parse c1 t1 u).upstream).cache).vals =
        (validateUpstream secrets discover parse c1 t1 u).provider.toList ++
        (syncLoop secrets discover parse t1 rest
          (validateUpstream secrets discover parse c1 t1 u).cache).vals
      rw [hproveq, hih.1]
    · show (if (validateUpstream secrets discover parse c2 t2
            (validateUpstream secrets discover parse c1 t1 u).upstream).wroteStatus
          then 1 else 0) +
        (syncLoop secrets discover parse t2
          (syncLoop secrets discover parse t1 rest
            (validateUpstream secrets discover parse c1 t1 u).cache).upstreams
          (validateUpstream secrets discover parse c2 t2
            (validateUpstream secrets discover parse c1 t1 u).upstream).cache).statusWrites =
        0
      rw [hwrote2, hih.2]
      rfl

end Upstreamwatcher

namespace Cachecleaner

/-- The generalized invariant of the deletion loop: iterating the keys of
the `rest` segment (whose keys are distinct and disjoint from the `pre`
segment) deletes exactly the stale entries of `rest` and closes the
closable ones among them, in order. -/
theorem gc_fold_gen (implied : List Key) :
    ∀ (rest pre : List (Key × Value)) (c0 : List Key),
      (∀ kv ∈ pre, ¬ kv.1 ∈ rest.map Prod.fst) →
      (rest.map Prod.fst).Nodup →
      (rest.map Prod.fst).foldl (gcStep implied) { cache := pre ++ rest, closed := c0 } =
        { cache := pre ++ rest.filter (fun kv => ¬ staleKey implied kv.1)
          closed := c0 ++ (rest.filter (fun kv =>
            staleKey implied kv.1 ∧ kv.2.closable = true)).map Prod.fst } := by
  intro rest
  induction rest with
  | nil => intro pre c0 _ _; simp
  | cons kv rest' ih =>
    intro pre c0 hdisj hnd
    rw [List.map_cons, List.nodup_cons] at hnd
    have hdisj' : ∀ x ∈ pre, ¬ x.1 ∈ rest'.map Prod.fst := by
      intro x hx hmem
      exact hdisj x hx (by rw [List.map_cons]; exact List.mem_cons_of_mem _ hmem)
    simp only [List.map_cons, List.foldl_cons]
    by_cases hrem : staleKey implied kv.1
    · have hfind : ((pre ++ kv :: rest').find? fun x => decide (x.1 = kv.1)) = some kv := by
        rw [List.find?_append, List.find?_eq_none.mpr ?_]
        · rw [Option.none_or]
          rw [List.find?_cons_of_pos _ (by simp)]
        · intro x hx
          simp only [decide_eq_true_eq]
          intro hxe
          exact hdisj x hx (by rw [List.map_cons, hxe]; exact List.mem_cons_self _ _)
      have hfilter : ((pre ++ kv :: rest').filter fun x => decide (¬ x.1 = kv.1)) =
          pre ++ rest' := by
        rw [List.filter_append]
        congr 1
        · rw [List.filter_eq_self]
          intro x hx
          simp only [decide_eq_true_eq]
          intro hxe
          exact hdisj x hx (by rw [List.map_cons, hxe]; exact List.mem_cons_self _ _)
        · rw [List.filter_cons_of_neg (by simp), List.filter_eq_self]
          intro x hx
          simp only [decide_eq_true_eq]
          intro hxe
          exact hnd.1 (hxe ▸ List.mem_map_of_mem Prod.fst hx)
      have hstep : gcStep implied { cache := pre ++ kv :: rest', closed := c0 } kv.1 =
          { cache := pre ++ rest'
            closed := if kv.2.closable then c0 ++ [kv.1] else c0 } := by
        unfold gcStep
        rw [if_pos hrem]
        simp only [hfind, hfilter, Option.map_some']
        cases hcl : kv.2.closable <;> simp [hcl]
      rw [hstep, ih pre _ hdisj' hnd.2]
      have hkeep : (List.filter (fun x => decide (¬ staleKey implied x.1)) (kv :: rest')) =
          List.filter (fun x => decide (¬ staleKey implied x.1)) rest' :=
        List.filter_cons_of_neg (by simp [hrem])
      have hclosedf : (List.filter (fun x =>
            decide (staleKey implied x.1 ∧ x.2.closable = true)) (kv :: rest')) =
          (if kv.2.closable then [kv] else []) ++ List.filter (fun x =>
            decide (staleKey implied x.1 ∧ x.2.closable = true)) rest' := by
        cases hcl : kv.2.closable
        · rw [List.filter_cons_of_neg (by simp [hrem, hcl])]
          simp
        · rw [List.filter_cons_of_pos (by simp [hrem, hcl])]
          simp
      rw [hkeep, hclosedf]
      cases hcl : kv.2.closable <;> simp
    · have hstep : gcStep implied { cache := pre ++ kv :: rest', closed := c0 } kv.1 =
          { cache := pre ++ kv :: rest', closed := c0 } := by
        unfold gcStep
        rw [if_neg hrem]
      have hdisj2 : ∀ x ∈ pre ++ [kv], ¬ x.1 ∈ rest'.map Prod.fst := by
        intro x hx
        rcases List.mem_append.mp hx with hx' | hx'
        · exact hdisj' x hx'
        · rw [List.mem_singleton] at hx'
          subst hx'
          exact hnd.1
      have hsplit : pre ++ kv :: rest' = (pre ++ [kv]) ++ rest' := by simp
      rw [hstep, hsplit, ih (pre ++ [kv]) c0 hdisj2 hnd.2]
      have hkeep : (List.filter (fun x => decide (¬ staleKey implied x.1)) (kv :: rest')) =
          kv :: List.filter (fun x => decide (¬ staleKey implied x.1)) rest' :=
        List.filter_cons_of_pos (by simp [hrem])
      have hclosedf : (List.filter (fun x =>
            decide (staleKey implied x.1 ∧ x.2.closable = true)) (kv :: rest')) =
          List.filter (fun x =>
            decide (staleKey implied x.1 ∧ x.2.closable = true)) rest' :=
        List.filter_cons_of_neg (by simp [hrem])
      rw [hkeep, hclosedf]
      simp

/-- Closed form of a GC pass on a cache with distinct keys: the stale
entries are removed and the closable ones among them are closed, in cache
order. -/
theorem gcSync_eq (webhooks jwtAuthenticators : List NamespacedName)
    (cache : List (Key × Value)) (hnd : (cache.map Prod.fst).Nodup) :
    gcSync webhooks jwtAuthenticators cache =
      { cache := cache.filter (fun kv =>
          ¬ staleKey (impliedKeys webhooks jwtAuthenticators) kv.1)
        closed := (cache.filter (fun kv =>
          staleKey (impliedKeys webhooks jwtAuthenticators) kv.1 ∧
            kv.2.closable = true)).map Prod.fst } := by
  have hmain := gc_fold_gen (impliedKeys webhooks jwtAuthenticators) cache [] []
    (by intro kv h; simp at h) hnd
  simpa [gcSync] using hmain

end Cachecleaner

namespace Fixtures

/-!
Concrete test fixtures used by witnesses and counterexamples. The parse
function is a finite table standing in for `net/url.Parse` on the URLs the
fixtures mention.
-/

open Upstreamwatcher

/-- A table-based stand-in for `net/url.Parse` on the fixture URLs. -/
def testParse (s : String) : Except String URL :=
  if s = "https://issuer.example.com/auth" then
    Except.ok { scheme := "https", rest := "issuer.example.com/auth" }
  else if s = "http://issuer.example.com/auth" then
    Except.ok { scheme := "http", rest := "issuer.example.com/auth" }
  else Except.error "missing protocol scheme"

/-- A well-formed client-credentials Secret. -/
def goodSecret : Secret :=
  { type_ := oidcClientSecretType
    data := [("clientID", "some-client-id"), ("clientSecret", "some-client-secret")] }

/-- A Secret missing the `clientSecret` key. -/
def missingKeySecret : Secret :=
  { type_ := oidcClientSecretType, data := [("clientID", "some-client-id")] }

/-- A Secret with the wrong type tag. -/
def wrongTypeSecret : Secret :=
  { type_ := "Opaque"
    data := [("clientID", "some-client-id"), ("clientSecret", "some-client-secret")] }

/-- An upstream resource with empty status, referencing Secret `"s"`. -/
def u1 : UpstreamOIDCProvider :=
  { namespace_ := "test-namespace", name := "test-name", generation := 1234
    spec := { issuer := "https://issuer.example.com"
              authorizationConfig := { additionalScopes := ["groups", "email"] }
              client := { secretName := "s" } }
    status := { phase := "", conditions := [] } }

/-- A secret store containing `goodSecret` under `"s"` in `u1`'s namespace. -/
def goodSecrets : String → String → Option Secret := fun ns n =>
  if ns = "test-namespace" ∧ n = "s" then some goodSecret else none

/-- A secret store with no secrets at all. -/
def noSecrets : String → String → Option Secret := fun _ _ => none

/-- Discovery succeeding for `u1`'s issuer with an https endpoint. -/
def discoverOK : String → Option OIDCProviderMeta := fun i =>
  if i = "https://issuer.example.com" then
    some { authURL := "https://issuer.example.com/auth" }
  else none

/-- Discovery succeeding for `u1`'s issuer with an http (insecure) endpoint. -/
def discoverHTTP : String → Option OIDCProviderMeta := fun i =>
  if i = "https://issuer.example.com" then
    some { authURL := "http://issuer.example.com/auth" }
  else none

/-- Discovery failing for every issuer. -/
def discoverFail : String → Option OIDCProviderMeta := fun _ => none

/-- A concrete condition used by merge witnesses. -/
def condA : Condition :=
  { type_ := "ClientCredentialsValid", status := ConditionStatus.conditionTrue
    reason := "Success", message := "loaded client credentials"
    lastTransitionTime := 7, observedGeneration := 3 }

/-- Declared WebhookAuthenticator `a`. -/
def nnA : Cachecleaner.NamespacedName := { namespace_ := "ns", name := "a" }

/-- Declared JWTAuthenticator `b`. -/
def nnB : Cachecleaner.NamespacedName := { namespace_ := "ns", name := "b" }

/-- Cache key for the declared webhook `a`. -/
def keyA : Cachecleaner.Key :=
  { namespace_ := "ns", name := "a", kind := "WebhookAuthenticator"
    apiGroup := Cachecleaner.authenticationGroup }

/-- Cache key for the declared JWT authenticator `b`. -/
def keyB : Cachecleaner.Key :=
  { namespace_ := "ns", name := "b", kind := "JWTAuthenticator"
    apiGroup := Cachecleaner.authenticationGroup }

/-- Cache key for a webhook `c` with no declared resource. -/
def keyC : Cachecleaner.Key :=
  { namespace_ := "ns", name := "c", kind := "WebhookAuthenticator"
    apiGroup := Cachecleaner.authenticationGroup }

/-- A foreign cache key (different API group), also undeclared. -/
def keyF : Cachecleaner.Key :=
  { namespace_ := "ns", name := "f", kind := "WebhookAuthenticator"
    apiGroup := "other.group.example.com" }

/-- A runtime cache holding the two declared authenticators, the stale
closable entry `c`, and a foreign entry. -/
def gcCache : List (Cachecleaner.Key × Cachecleaner.Value) :=
  [(keyA, { closable := false }), (keyB, { closable := true }),
   (keyC, { closable := true }), (keyF, { closable := true })]

end Fixtures

namespace Claims

open Upstreamwatcher Fixtures

/-- C4: For every resource and secret store, `validateSecret` performs its
checks in order, short-circuiting on the first failure: a fetch failure for
the referenced secret yields a False condition with reason `SecretNotFound`;
a present secret whose type tag is not the expected OIDC client-credential
type yields False/`SecretWrongType` naming the offending type; a secret
missing the `clientID` or `clientSecret` key (or having an empty value for
either) yields False/`SecretMissingKeys` naming the missing keys; otherwise
the condition is True/`Success` and the client credentials are extracted
into the result. -/
theorem validateSecret_checks_in_order (secrets : String → String → Option Secret)
    (u : UpstreamOIDCProvider) :
    (secrets u.namespace_ u.spec.client.secretName = none →
      validateSecret secrets u =
        ({ type_ := typeClientCredsValid, status := ConditionStatus.conditionFalse,
           reason := reasonNotFound,
           message := "secret \"" ++ u.spec.client.secretName ++ "\" not found",
           lastTransitionTime := 0, observedGeneration := 0 }, none)) ∧
    (∀ s, secrets u.namespace_ u.spec.client.secretName = some s →
      ¬ s.type_ = oidcClientSecretType →
      validateSecret secrets u =
        ({ type_ := typeClientCredsValid, status := ConditionStatus.conditionFalse,
           reason := reasonWrongType,
           message := "referenced Secret \"" ++ u.spec.client.secretName
             ++ "\" has wrong type \"" ++ s.type_ ++ "\" (should be \""
             ++ oidcClientSecretType ++ "\")",
           lastTransitionTime := 0, observedGeneration := 0 }, none)) ∧
    (∀ s, secrets u.namespace_ u.spec.client.secretName = some s →
      s.type_ = oidcClientSecretType →
      ((s.getData clientIDDataKey).length = 0 ∨ (s.getData clientSecretDataKey).length = 0) →
      validateSecret secrets u =
        ({ type_ := typeClientCredsValid, status := ConditionStatus.conditionFalse,
           reason := reasonMissingKeys,
           message := "referenced Secret \"" ++ u.spec.client.secretName
             ++ "\" is missing required keys [\"" ++ clientIDDataKey ++ "\" \""
             ++ clientSecretDataKey ++ "\"]",
           lastTransitionTime := 0, observedGeneration := 0 }, none)) ∧
    (∀ s, secrets u.namespace_ u.spec.client.secretName = some s →
      s.type_ = oidcClientSecretType →
      ¬ (s.getData clientIDDataKey).length = 0 →
      ¬ (s.getData clientSecretDataKey).length = 0 →
      validateSecret secrets u =
        ({ type_ := typeClientCredsValid, status := ConditionStatus.conditionTrue,
           reason := reasonSuccess, message := "loaded client credentials",
           lastTransitionTime := 0, observedGeneration := 0 },
         some (s.getData clientIDDataKey))) := by
  refine ⟨fun h => ?_, fun s hs ht => ?_, fun s hs ht hk => ?_, fun s hs ht h1 h2 => ?_⟩
  · simp only [validateSecret, h]
  · simp only [validateSecret, hs]
    rw [if_pos ht]
  · simp only [validateSecret, hs]
    rw [if_neg (by simp [ht]), if_pos hk]
  · simp only [validateSecret, hs]
    rw [if_neg (by simp [ht]), if_neg (by simp [h1, h2])]

/-- Witness for C4 at concrete inputs: a store with no secrets yields the
`SecretNotFound` condition, and the fixture store with a well-formed secret
yields the success condition with the client ID extracted. -/
theorem validateSecret_checks_in_order_witness :
    validateSecret noSecrets u1 =
      ({ type_ := typeClientCredsValid, status := ConditionStatus.conditionFalse,
         reason := reasonNotFound, message := "secret \"s\" not found",
         lastTransitionTime := 0, observedGeneration := 0 }, none) ∧
    validateSecret goodSecrets u1 =
      ({ type_ := typeClientCredsValid, status := ConditionStatus.conditionTrue,
         reason := reasonSuccess, message := "loaded client credentials",
         lastTransitionTime := 0, observedGeneration := 0 }, some "some-client-id") := by
  constructor
  · exact (validateSecret_checks_in_order noSecrets u1).1 rfl
  · exact (validateSecret_checks_in_order goodSecrets u1).2.2.2 goodSecret rfl rfl
      (by decide) (by decide)

/-- C6: For every discovery result whose advertised authorization endpoint
URL has a scheme other than https (including unparseable URLs),
`validateIssuer` returns a False condition with reason `InvalidResponse`,
regardless of whether discovery itself was reachable (the metadata may come
from the cache or from a fresh call); the True/Success condition with the
endpoint attached is returned only when the endpoint parses and its scheme
is https. -/
theorem validateIssuer_scheme_enforcement (discover : String → Option OIDCProviderMeta)
    (parse : String → Except String URL) (cache : List CacheEntry) (now : Nat)
    (issuer : String) :
    (∀ p, obtainedProvider discover cache now issuer p →
      ((∃ e, parse p.authURL = Except.error e) ∨
        (∃ u0, parse p.authURL = Except.ok u0 ∧ ¬ u0.scheme = "https")) →
      (validateIssuer discover parse cache now issuer).cond.status =
          ConditionStatus.conditionFalse ∧
        (validateIssuer discover parse cache now issuer).cond.reason = reasonInvalidResponse ∧
        (validateIssuer discover parse cache now issuer).endpoint = none) ∧
    ((validateIssuer discover parse cache now issuer).cond.status =
        ConditionStatus.conditionTrue ↔
      ∃ p u0, obtainedProvider discover cache now issuer p ∧
        parse p.authURL = Except.ok u0 ∧ u0.scheme = "https" ∧
        (validateIssuer discover parse cache now issuer).endpoint = some u0 ∧
        (validateIssuer discover parse cache now issuer).cond.reason = reasonSuccess) := by
  cases hget : cacheGet cache now issuer with
  | some p0 =>
    have hobt : ∀ p, obtainedProvider discover cache now issuer p → p = p0 := by
      rintro p (h1 | ⟨h1, _⟩)
      · rw [hget] at h1
        exact (Option.some.injEq _ _).mp h1.symm
      · rw [hget] at h1
        exact absurd h1 (by simp)
    rw [validateIssuer_hit hget]
    constructor
    · intro p hp hbad
      exact (validateEndpoint_status_cases parse cache false p0).1 (hobt p hp ▸ hbad)
    · rw [(validateEndpoint_status_cases parse cache false p0).2]
      constructor
      · rintro ⟨u0, h1, h2, h3, h4⟩
        exact ⟨p0, u0, Or.inl hget, h1, h2, h3, h4⟩
      · rintro ⟨p, u0, hp, h1, h2, h3, h4⟩
        exact ⟨u0, hobt p hp ▸ h1, h2, h3, h4⟩
  | none =>
    cases hd : discover issuer with
    | none =>
      have hobt : ∀ p, ¬ obtainedProvider discover cache now issuer p := by
        rintro p (h1 | ⟨_, h2⟩)
        · rw [hget] at h1; exact absurd h1 (by simp)
        · rw [hd] at h2; exact absurd h2 (by simp)
      rw [validateIssuer_miss_fail hget hd]
      constructor
      · intro p hp _
        exact absurd hp (hobt p)
      · constructor
        · intro hT
          exact absurd hT (by simp [unreachableCondition])
        · rintro ⟨p, _, hp, _⟩
          exact absurd hp (hobt p)
    | some p0 =>
      have hobt : ∀ p, obtainedProvider discover cache now issuer p → p = p0 := by
        rintro p (h1 | ⟨_, h2⟩)
        · rw [hget] at h1; exact absurd h1 (by simp)
        · rw [hd] at h2
          exact (Option.some.injEq _ _).mp h2.symm
      rw [validateIssuer_miss_ok hget hd]
      constructor
      · intro p hp hbad
        exact (validateEndpoint_status_cases parse _ true p0).1 (hobt p hp ▸ hbad)
      · rw [(validateEndpoint_status_cases parse _ true p0).2]
        constructor
        · rintro ⟨u0, h1, h2, h3, h4⟩
          exact ⟨p0, u0, Or.inr ⟨hget, hd⟩, h1, h2, h3, h4⟩
        · rintro ⟨p, u0, hp, h1, h2, h3, h4⟩
          exact ⟨u0, hobt p hp ▸ h1, h2, h3, h4⟩

/-- Witness for C6 at concrete inputs: discovery is reachable but
advertises an http authorization endpoint, and validateIssuer reports
False/InvalidResponse with no endpoint attached. -/
theorem validateIssuer_scheme_enforcement_witness :
    (validateIssuer discoverHTTP testParse [] 500 "https://issuer.example.com").cond.status =
        ConditionStatus.conditionFalse ∧
      (validateIssuer discoverHTTP testParse [] 500
          "https://issuer.example.com").cond.reason = reasonInvalidResponse ∧
      (validateIssuer discoverHTTP testParse [] 500
          "https://issuer.example.com").endpoint = none := by
  refine (validateIssuer_scheme_enforcement discoverHTTP testParse [] 500
      "https://issuer.example.com").1
    { authURL := "http://issuer.example.com/auth" } (Or.inr ⟨rfl, rfl⟩)
    (Or.inr ⟨{ scheme := "http", rest := "issuer.example.com/auth" }, rfl, by decide⟩)

/-- C10: A failed discovery lookup is never stored in the discovery cache:
after an `Unreachable` failure the cache is unchanged, and the next
`validateIssuer` call for that issuer performs a fresh discovery call
(whatever transport it is given) rather than reusing the failure. -/
theorem validateIssuer_failure_not_cached (discover : String → Option OIDCProviderMeta)
    (parse : String → Except String URL) (cache : List CacheEntry) (now : Nat)
    (issuer : String) (hmiss : cacheGet cache now issuer = none)
    (hfail : discover issuer = none) :
    (validateIssuer discover parse cache now issuer).cache = cache ∧
    (validateIssuer discover parse cache now issuer).cond.status =
      ConditionStatus.conditionFalse ∧
    (validateIssuer discover parse cache now issuer).cond.reason = reasonUnreachable ∧
    (validateIssuer discover parse cache now issuer).discoveryCalled = true ∧
    (∀ discover2 : String → Option OIDCProviderMeta,
      (validateIssuer discover2 parse (validateIssuer discover parse cache now issuer).cache
        now issuer).discoveryCalled = true) := by
  rw [validateIssuer_miss_fail hmiss hfail]
  refine ⟨rfl, rfl, rfl, rfl, fun discover2 => ?_⟩
  cases hd : discover2 issuer with
  | none => rw [validateIssuer_miss_fail hmiss hd]
  | some p => rw [validateIssuer_miss_ok hmiss hd, validateEndpoint_parts]

/-- Witness for C10 at concrete inputs: with an empty cache and failing
discovery, the cache stays empty, the condition is False/Unreachable, and a
retry calls the transport again. -/
theorem validateIssuer_failure_not_cached_witness :
    (validateIssuer discoverFail testParse [] 500 "https://issuer.example.com").cache = [] ∧
    (validateIssuer discoverFail testParse [] 500 "https://issuer.example.com").cond.status =
      ConditionStatus.conditionFalse ∧
    (validateIssuer discoverFail testParse [] 500
      "https://issuer.example.com").cond.reason = reasonUnreachable ∧
    (validateIssuer discoverFail testParse [] 500
      "https://issuer.example.com").discoveryCalled = true ∧
    (∀ discover2 : String → Option OIDCProviderMeta,
      (validateIssuer discover2 testParse
        (validateIssuer discoverFail testParse [] 500 "https://issuer.example.com").cache
        500 "https://issuer.example.com").discoveryCalled = true) :=
  validateIssuer_failure_not_cached discoverFail testParse [] 500
    "https://issuer.example.com" rfl rfl

/-- C5: after a cache miss and a successful discovery at time `t0`, the
result is stored in the cache keyed by the issuer URL with the 15-minute
TTL; any later call within the TTL window does not invoke the discovery
transport (the result is computed from the cached metadata, for any
transport), and a call after the TTL has expired performs a fresh
discovery call. -/
theorem validateIssuer_discovery_caching (discover : String → Option OIDCProviderMeta)
    (parse : String → Except String URL) (cache : List CacheEntry) (t0 : Nat)
    (issuer : String) (p : OIDCProviderMeta) (hmiss : cacheGet cache t0 issuer = none)
    (hdisc : discover issuer = some p) :
    ((validateIssuer discover parse cache t0 issuer).discoveryCalled = true ∧
      (validateIssuer discover parse cache t0 issuer).cache =
        cacheSet cache t0 validatorCacheTTL issuer p) ∧
    (∀ t1, t1 ≤ t0 + validatorCacheTTL → ∀ discover2 : String → Option OIDCProviderMeta,
      validateIssuer discover2 parse (validateIssuer discover parse cache t0 issuer).cache
          t1 issuer =
        validateEndpoint parse (validateIssuer discover parse cache t0 issuer).cache
          false p) ∧
    (∀ t2, t0 + validatorCacheTTL < t2 →
      (validateIssuer discover parse (validateIssuer discover parse cache t0 issuer).cache
        t2 issuer).discoveryCalled = true) := by
  have hstep := @validateIssuer_miss_ok discover parse cache t0 issuer p hmiss hdisc
  have hcache : (validateIssuer discover parse cache t0 issuer).cache =
      cacheSet cache t0 validatorCacheTTL issuer p := by
    rw [hstep, validateEndpoint_parts]
  have hcalled : (validateIssuer discover parse cache t0 issuer).discoveryCalled = true := by
    rw [hstep, validateEndpoint_parts]
  refine ⟨⟨hcalled, hcache⟩, ?_, ?_⟩
  · intro t1 ht1 discover2
    have hget : cacheGet (validateIssuer discover parse cache t0 issuer).cache t1 issuer =
        some p := by
      rw [hcache, cacheGet_cacheSet_self, if_pos ht1]
    exact validateIssuer_hit hget
  · intro t2 ht2
    have hget : cacheGet (validateIssuer discover parse cache t0 issuer).cache t2 issuer =
        none := by
      rw [hcache, cacheGet_cacheSet_self, if_neg (not_le.mpr ht2)]
    rw [validateIssuer_miss_ok hget hdisc, validateEndpoint_parts]

/-- Witness for C5 at concrete inputs: the fixture discovery result is
cached at time 500 with the 15-minute TTL; at time 900 (within the TTL) the
result is served from the cache even under a transport that always fails,
and just past the expiry the transport is invoked again. -/
theorem validateIssuer_discovery_caching_witness :
    ((validateIssuer discoverOK testParse [] 500 "https://issuer.example.com").discoveryCalled =
        true ∧
      (validateIssuer discoverOK testParse [] 500 "https://issuer.example.com").cache =
        cacheSet [] 500 validatorCacheTTL "https://issuer.example.com"
          { authURL := "https://issuer.example.com/auth" }) ∧
    (validateIssuer discoverFail testParse
        (validateIssuer discoverOK testParse [] 500 "https://issuer.example.com").cache
        900 "https://issuer.example.com" =
      validateEndpoint testParse
        (validateIssuer discoverOK testParse [] 500 "https://issuer.example.com").cache
        false { authURL := "https://issuer.example.com/auth" }) ∧
    (validateIssuer discoverOK testParse
        (validateIssuer discoverOK testParse [] 500 "https://issuer.example.com").cache
        (500 + validatorCacheTTL + 1) "https://issuer.example.com").discoveryCalled = true := by
  have h := validateIssuer_discovery_caching discoverOK testParse [] 500
    "https://issuer.example.com" { authURL := "https://issuer.example.com/auth" } rfl rfl
  exact ⟨h.1, h.2.1 900 (by decide) discoverFail,
    h.2.2 (500 + validatorCacheTTL + 1) (Nat.lt_succ_self _)⟩

/-- C1: For every reconciliation pass of the OIDC upstream watcher that
successfully lists its resources, the list published to the snapshot cache
via `SetIDPList` equals exactly the set of listed resources for which every
computed condition has status True (each contributing one validated
provider); resources with any non-True condition are omitted, and the
published list fully replaces the previous one (the result is the same for
every previous published list) even when it is empty. -/
theorem sync_snapshot_correctness (secrets : String → String → Option Secret)
    (discover : String → Option OIDCProviderMeta) (parse : String → Except String URL)
    (ups : List UpstreamOIDCProvider) (prev : List UpstreamOIDCIdentityProvider)
    (cache : List CacheEntry) (now : Nat) :
    (Sync secrets discover parse ups prev cache now).published =
      publishedPerSpec secrets discover parse now ups cache := by
  simp only [Sync, setIDPList]
  exact syncLoop_vals secrets discover parse now ups cache

/-- Counterexample to C2: a resource failing only for the permanent
configuration reason `SecretNotFound` (its other condition is
True/Success, so discovery was reachable) still makes the pass return
`ErrSyntheticRequeue`, although the claim says permanent configuration
failures do not cause a requeue. -/
theorem sync_requeue_on_permanent_failure_counterexample :
    (Sync noSecrets discoverOK testParse [u1] [] [] 500).syntheticRequeue = true ∧
    (validateUpstream noSecrets discoverOK testParse [] 500 u1).conditions.map
        (fun c => (c.status, c.reason)) =
      [(ConditionStatus.conditionFalse, reasonNotFound),
       (ConditionStatus.conditionTrue, reasonSuccess)] := by
  decide

/-- C2 amended: a reconciliation pass ends by requesting a synthetic
requeue iff at least one listed resource failed validation (contributed no
provider to the published list), regardless of whether the failure reason
is transient (discovery unreachable) or a permanent configuration problem
(secret not found, wrong type, missing keys, invalid response). -/
theorem sync_requeue_iff_any_failed (secrets : String → String → Option Secret)
    (discover : String → Option OIDCProviderMeta) (parse : String → Except String URL)
    (ups : List UpstreamOIDCProvider) (prev : List UpstreamOIDCIdentityProvider)
    (cache : List CacheEntry) (now : Nat) :
    (Sync secrets discover parse ups prev cache now).published.length ≤ ups.length ∧
    ((Sync secrets discover parse ups prev cache now).syntheticRequeue = true ↔
      (Sync secrets discover parse ups prev cache now).published.length < ups.length) := by
  simp only [Sync, setIDPList]
  exact syncLoop_length_requeue secrets discover parse now ups cache

/-- C9: `validateUpstream` always evaluates both the secret validator and
the issuer/discovery validator and aggregates both resulting conditions
into the status, even when secret validation has already failed; the
condition list passed to `updateStatus` is exactly one
`ClientCredentialsValid` condition followed by one
`OIDCDiscoverySucceeded` condition, and the discovery side effects (cache
update, transport invocation) are those of `validateIssuer` regardless of
the secret failure. -/
theorem validateUpstream_always_evaluates_both (secrets : String → String → Option Secret)
    (discover : String → Option OIDCProviderMeta) (parse : String → Except String URL)
    (cache : List CacheEntry) (now : Nat) (u : UpstreamOIDCProvider)
    (hfail : (validateSecret secrets u).1.status = ConditionStatus.conditionFalse) :
    (validateUpstream secrets discover parse cache now u).conditions =
      [(validateSecret secrets u).1,
       (validateIssuer discover parse cache now u.spec.issuer).cond] ∧
    (validateSecret secrets u).1.type_ = typeClientCredsValid ∧
    (validateIssuer discover parse cache now u.spec.issuer).cond.type_ =
      typeOIDCDiscoverySucceeded ∧
    (validateUpstream secrets discover parse cache now u).cache =
      (validateIssuer discover parse cache now u.spec.issuer).cache ∧
    (validateUpstream secrets discover parse cache now u).discoveryCalled =
      (validateIssuer discover parse cache now u.spec.issuer).discoveryCalled ∧
    (validateUpstream secrets discover parse cache now u).upstream =
      (updateStatus now u [(validateSecret secrets u).1,
        (validateIssuer discover parse cache now u.spec.issuer).cond]).1 ∧
    (validateUpstream secrets discover parse cache now u).provider = none := by
  refine ⟨rfl, validateSecret_cond_type secrets u,
    validateIssuer_cond_type discover parse cache now u.spec.issuer, rfl, rfl, rfl, ?_⟩
  simp only [validateUpstream]
  simp [hfail]

/-- Witness for C9 at concrete inputs: with no secrets available, the
secret condition is False, yet the discovery validator still ran: the
conditions are both present and the discovery result was cached. -/
theorem validateUpstream_always_evaluates_both_witness :
    (validateUpstream noSecrets discoverOK testParse [] 500 u1).conditions =
      [(validateSecret noSecrets u1).1,
       (validateIssuer discoverOK testParse [] 500 u1.spec.issuer).cond] ∧
    (validateUpstream noSecrets discoverOK testParse [] 500 u1).cache =
      (validateIssuer discoverOK testParse [] 500 u1.spec.issuer).cache ∧
    (validateUpstream noSecrets discoverOK testParse [] 500 u1).discoveryCalled =
      (validateIssuer discoverOK testParse [] 500 u1.spec.issuer).discoveryCalled ∧
    (validateUpstream noSecrets discoverOK testParse [] 500 u1).provider = none := by
  have h := validateUpstream_always_evaluates_both noSecrets discoverOK testParse [] 500 u1
    (by decide)
  exact ⟨h.1, h.2.2.2.1, h.2.2.2.2.1, h.2.2.2.2.2.2⟩

/-- C3: For every existing condition list and every new condition:
`mergeCondition` appends and returns true when no condition of the same
type exists; when one exists (the Go loop selects the last matching entry),
it carries the old `lastTransitionTime` forward exactly when the status is
unchanged (so the transition time changes only on a status flip), returns
false with no mutation of the list when the merged condition is
structurally equal to the existing entry, and otherwise replaces the entry
in place and returns true; after merging all conditions of a pass in
`updateStatus`, the list is sorted by condition type and (provided the
stored list satisfied the at-most-one-per-type invariant) contains at most
one condition per type. -/
theorem mergeCondition_spec (existing : List Condition) (nw : Condition) (now : Nat)
    (u : UpstreamOIDCProvider) (conds : List Condition)
    (hu : ((u.status.conditions).map Condition.type_).Nodup) :
    ((∀ c ∈ existing, ¬ c.type_ = nw.type_) →
      mergeCondition existing nw = (existing ++ [nw], true)) ∧
    (∀ i, lastIdxOfType existing nw.type_ = some i →
      mergeCondition existing nw =
        (if existing.getD i nw = (if (existing.getD i nw).status = nw.status
            then { nw with lastTransitionTime := (existing.getD i nw).lastTransitionTime }
            else nw)
          then (existing, false)
          else (existing.set i (if (existing.getD i nw).status = nw.status
            then { nw with lastTransitionTime := (existing.getD i nw).lastTransitionTime }
            else nw), true))) ∧
    List.Sorted condLE (updateStatus now u conds).1.status.conditions ∧
    (((updateStatus now u conds).1.status.conditions).map Condition.type_).Nodup := by
  refine ⟨?_, ?_, ?_, ?_⟩
  · intro hall
    unfold mergeCondition
    rw [(lastIdxOfType_eq_none_iff existing nw.type_).mpr hall]
  · intro i hidx
    unfold mergeCondition
    rw [hidx]
    dsimp only
    by_cases heq : existing.getD i nw = (if (existing.getD i nw).status = nw.status
        then { nw with lastTransitionTime := (existing.getD i nw).lastTransitionTime } else nw)
    · rw [if_neg (not_not_intro heq), if_pos heq]
    · rw [if_pos heq, if_neg heq]
  · show List.Sorted condLE
      (List.insertionSort condLE (mergeAll u.status.conditions
        (conds.map fun c =>
          { c with lastTransitionTime := now, observedGeneration := u.generation })))
    exact List.sorted_insertionSort condLE _
  · show ((List.insertionSort condLE (mergeAll u.status.conditions
        (conds.map fun c =>
          { c with lastTransitionTime := now, observedGeneration := u.generation }))).map
      Condition.type_).Nodup
    have hperm := (List.perm_insertionSort condLE (mergeAll u.status.conditions
      (conds.map fun c =>
        { c with lastTransitionTime := now, observedGeneration := u.generation }))).map
      Condition.type_
    exact hperm.nodup_iff.mpr (mergeAll_nodup _ hu)

/-- Witness for C3 at concrete inputs: merging into an empty list appends,
and a concrete `updateStatus` run leaves a sorted, duplicate-free
condition list. -/
theorem mergeCondition_spec_witness :
    mergeCondition [] condA = ([condA], true) ∧
    List.Sorted condLE (updateStatus 500 u1 [condA]).1.status.conditions ∧
    (((updateStatus 500 u1 [condA]).1.status.conditions).map Condition.type_).Nodup := by
  have h := mergeCondition_spec [] condA 500 u1 [condA] (by decide)
  exact ⟨h.1 (by simp), h.2.2.1, h.2.2.2⟩

/-- C8: For every runtime cache (with distinct keys) and every set of
declared WebhookAuthenticator and JWTAuthenticator resources, a GC pass
removes from the cache exactly those keys that belong to this engine's own
API group with kind WebhookAuthenticator or JWTAuthenticator and are not
implied by any declared resource, invoking the cached value's Close hook
exactly once when the value exposes one (the closed list is exactly those
removed closable entries, without duplicates); keys with a foreign API
group or kind are left untouched, no entries are ever added (the new cache
is a sublist of the old), and a second pass with no declared-resource
changes removes nothing further. -/
theorem gc_pass_spec (webhooks jwtAuthenticators : List Cachecleaner.NamespacedName)
    (cache : List (Cachecleaner.Key × Cachecleaner.Value))
    (hnd : (cache.map Prod.fst).Nodup) :
    (Cachecleaner.gcSync webhooks jwtAuthenticators cache).cache =
      cache.filter (fun kv =>
        ¬ Cachecleaner.staleKey (Cachecleaner.impliedKeys webhooks jwtAuthenticators) kv.1) ∧
    (Cachecleaner.gcSync webhooks jwtAuthenticators cache).closed =
      (cache.filter (fun kv =>
        Cachecleaner.staleKey (Cachecleaner.impliedKeys webhooks jwtAuthenticators) kv.1 ∧
          kv.2.closable = true)).map Prod.fst ∧
    (Cachecleaner.gcSync webhooks jwtAuthenticators cache).closed.Nodup ∧
    (Cachecleaner.gcSync webhooks jwtAuthenticators cache).cache.Sublist cache ∧
    Cachecleaner.gcSync webhooks jwtAuthenticators
        (Cachecleaner.gcSync webhooks jwtAuthenticators cache).cache =
      { cache := (Cachecleaner.gcSync webhooks jwtAuthenticators cache).cache
        closed := [] } := by
  have he := Cachecleaner.gcSync_eq webhooks jwtAuthenticators cache hnd
  have hcc : (Cachecleaner.gcSync webhooks jwtAuthenticators cache).cache =
      cache.filter (fun kv =>
        ¬ Cachecleaner.staleKey (Cachecleaner.impliedKeys webhooks jwtAuthenticators) kv.1) := by
    rw [he]
  have hcl : (Cachecleaner.gcSync webhooks jwtAuthenticators cache).closed =
      (cache.filter (fun kv =>
        Cachecleaner.staleKey (Cachecleaner.impliedKeys webhooks jwtAuthenticators) kv.1 ∧
          kv.2.closable = true)).map Prod.fst := by
    rw [he]
  have hsub : (Cachecleaner.gcSync webhooks jwtAuthenticators cache).cache.Sublist cache := by
    rw [hcc]; exact List.filter_sublist cache
  have hnd2 : ((Cachecleaner.gcSync webhooks jwtAuthenticators cache).cache.map
      Prod.fst).Nodup :=
    ((hsub.map Prod.fst).nodup hnd)
  have he2 := Cachecleaner.gcSync_eq webhooks jwtAuthenticators
    (Cachecleaner.gcSync webhooks jwtAuthenticators cache).cache hnd2
  refine ⟨hcc, hcl, ?_, hsub, ?_⟩
  · rw [hcl]
    exact (((List.filter_sublist cache).map Prod.fst).nodup hnd)
  · rw [he2]
    have hmem : ∀ kv ∈ (Cachecleaner.gcSync webhooks jwtAuthenticators cache).cache,
        ¬ Cachecleaner.staleKey (Cachecleaner.impliedKeys webhooks jwtAuthenticators) kv.1 := by
      intro kv hkv
      rw [hcc] at hkv
      have := (List.mem_filter.mp hkv).2
      exact of_decide_eq_true this
    congr 1
    · rw [List.filter_eq_self]
      intro kv hkv
      exact decide_eq_true (hmem kv hkv)
    · rw [List.map_eq_nil_iff, List.filter_eq_nil_iff]
      intro kv hkv
      simp only [decide_eq_true_eq, not_and]
      intro hstale
      exact absurd hstale (hmem kv hkv)

/-- Witness for C8 at concrete inputs: with declared resources `a` (webhook)
and `b` (JWT) and a cache containing `a`, `b`, a stale closable webhook `c`
and a foreign entry, a GC pass removes exactly `c`, closes it exactly once,
leaves the foreign entry untouched, and a second pass removes nothing. -/
theorem gc_pass_spec_witness :
    (Cachecleaner.gcSync [nnA] [nnB] gcCache).cache =
      [(keyA, { closable := false }), (keyB, { closable := true }),
       (keyF, { closable := true })] ∧
    (Cachecleaner.gcSync [nnA] [nnB] gcCache).closed = [keyC] ∧
    Cachecleaner.gcSync [nnA] [nnB] (Cachecleaner.gcSync [nnA] [nnB] gcCache).cache =
      { cache := (Cachecleaner.gcSync [nnA] [nnB] gcCache).cache, closed := [] } := by
  have h := gc_pass_spec [nnA] [nnB] gcCache (by decide)
  refine ⟨?_, ?_, h.2.2.2.2⟩
  · rw [h.1]; decide
  · rw [h.2.1]; decide

/-- C7: Running a reconciliation pass twice with no change to the
resources, secrets, or external discovery results in between — the second
pass lists the resources exactly as the first pass's status writes left
them, the secret store and transports are unchanged, and the discovery
cache is coherent with the transport (cached values agree with what a live
call returns, the meaning of "no change to external discovery results"),
with the stored condition lists satisfying the documented
at-most-one-per-type invariant — produces zero status-update writes on the
second pass (the deep-equality check in `updateStatus` finds nothing
changed for any resource) and publishes a snapshot identical to the first
pass's snapshot. -/
theorem sync_idempotent (secrets : String → String → Option Secret)
    (discover : String → Option OIDCProviderMeta) (parse : String → Except String URL)
    (ups : List UpstreamOIDCProvider)
    (prev1 prev2 : List UpstreamOIDCIdentityProvider)
    (cache0 : List CacheEntry) (t1 t2 : Nat)
    (hcoh : coherentCache discover cache0)
    (hnd : ∀ u ∈ ups, ((u.status.conditions).map Condition.type_).Nodup) :
    (Sync secrets discover parse (Sync secrets discover parse ups prev1 cache0 t1).upstreams
      prev2 (Sync secrets discover parse ups prev1 cache0 t1).cache t2).statusWrites = 0 ∧
    (Sync secrets discover parse (Sync secrets discover parse ups prev1 cache0 t1).upstreams
      prev2 (Sync secrets discover parse ups prev1 cache0 t1).cache t2).published =
      (Sync secrets discover parse ups prev1 cache0 t1).published := by
  have hc2 : coherentCache discover (syncLoop secrets discover parse t1 ups cache0).cache :=
    syncLoop_coherent secrets discover parse t1 ups cache0 hcoh
  have h := syncLoop_idem secrets discover parse t1 t2 ups cache0
    (syncLoop secrets discover parse t1 ups cache0).cache hcoh hc2 hnd
  exact ⟨h.2, h.1⟩

/-- Witness for C7 at concrete inputs: a pass over the fixture resource at
time 500 followed by a pass at time 900 over the written resources with the
resulting cache issues no writes and republishes the same snapshot. -/
theorem sync_idempotent_witness :
    (Sync goodSecrets discoverOK testParse
      (Sync goodSecrets discoverOK testParse [u1] [] [] 500).upstreams []
      (Sync goodSecrets discoverOK testParse [u1] [] [] 500).cache 900).statusWrites = 0 ∧
    (Sync goodSecrets discoverOK testParse
      (Sync goodSecrets discoverOK testParse [u1] [] [] 500).upstreams []
      (Sync goodSecrets discoverOK testParse [u1] [] [] 500).cache 900).published =
      (Sync goodSecrets discoverOK testParse [u1] [] [] 500).published :=
  sync_idempotent goodSecrets discoverOK testParse [u1] [] [] [] 500 900
    (by intro e he; exact absurd he (List.not_mem_nil e)) (by decide)

end Claims

